import Mathlib

/-!
Verification development for the sales-report pipeline in src/main.js.

The JavaScript source is shallowly embedded: JS numbers are modelled as
rationals, JS objects keyed by strings (sellersMap, productsMap,
sellersStats and the per-seller per-product breakdown) are modelled as
insertion-ordered association lists, `Number(x.toFixed(2))` is modelled
as `round2`, thrown exceptions are modelled with `Except String`, and
`Array.prototype.sort` with comparator `(a, b) => b.profit - a.profit`
(a stable sort per ECMAScript) is modelled by a stable insertion sort by
a rational key, descending.  Dynamic-typing checks of the source
(`typeof x !== 'number'`, `!obj`, `Array.isArray`) hold by construction
in the typed embedding; JS falsiness of a string field is the check
against the empty string.
-/

attribute [local semireducible] Rat.mul Rat.add Rat.sub Rat.inv Rat.ofScientific

/-- Models `Number(x.toFixed(2))` on exact decimal values: the nearest
multiple of 1/100, ties resolved to the larger candidate, following the
ECMAScript `toFixed` specification. -/
def round2 (x : ℚ) : ℚ := (((x * 100 + 1 / 2).floor : ℤ) : ℚ) / 100

/-- A seller record from `data.sellers`.  The `profit` field is the
mutable slot the ranking phase of `analyzeSalesData` writes into
(`sellerInfo.profit = seller.profit` in the source); it is absent
(`none`) on typical input. -/
structure SellerObj where
  id : String
  first_name : String
  last_name : String
  position : String
  profit : Option ℚ
  deriving DecidableEq

/-- A product record from `data.products`. -/
structure Product where
  sku : String
  name : String
  purchase_price : ℚ
  deriving DecidableEq

/-- One line item of a purchase record. -/
structure LineItem where
  sku : String
  sale_price : ℚ
  quantity : ℚ
  deriving DecidableEq

/-- A purchase record from `data.purchase_records`. -/
structure PurchaseRecord where
  seller_id : String
  items : List LineItem
  deriving DecidableEq

/-- The `data` argument of `analyzeSalesData`. -/
structure Dataset where
  sellers : List SellerObj
  products : List Product
  purchase_records : List PurchaseRecord

/-- The single-item pseudo-purchase `{ items: [item] }` handed to the
revenue strategy by the aggregation loop. -/
structure PseudoPurchase where
  items : List LineItem

/-- Per-product accumulated statistics `{count, profit}`. -/
structure ProductStat where
  count : ℚ
  profit : ℚ
  deriving DecidableEq

/-- One entry of `sellersStats`. -/
structure SellerStat where
  seller_id : String
  name : String
  revenue : ℚ
  profit : ℚ
  sales_count : Nat
  products : List (String × ProductStat)
  deriving DecidableEq

/-- One entry of a seller's `top_products`. -/
structure TopProduct where
  sku : String
  name : String
  count : ℚ
  profit : ℚ
  deriving DecidableEq

/-- One element of the array returned by `analyzeSalesData`. -/
structure OutputRecord where
  seller_id : String
  name : String
  revenue : ℚ
  profit : ℚ
  sales_count : Nat
  bonus : ℚ
  top_products : List TopProduct
  deriving DecidableEq

/-- The `options` argument: the two injected strategies.  A strategy a
caller did not supply (or supplied as a non-function) is `none`. -/
structure Options where
  calculateRevenue : Option (PseudoPurchase → Except String ℚ)
  calculateBonus : Option (ℤ → ℤ → SellerObj → Except String ℚ)

/-- First-match lookup in an insertion-ordered association list (JS
object property read; keys are unique in every list the pipeline
builds). -/
def alistLookup {α : Type} (k : String) : List (String × α) → Option α
  | [] => none
  | (k2, v) :: rest => if k2 = k then some v else alistLookup k rest

/-- JS object property write: replace in place when the key exists,
append otherwise (insertion order is preserved). -/
def alistInsert {α : Type} (k : String) (v : α) : List (String × α) → List (String × α)
  | [] => [(k, v)]
  | (k2, v2) :: rest =>
    if k2 = k then (k2, v) :: rest else (k2, v2) :: alistInsert k v rest

/-- Stable insertion, descending by a rational key: `x` goes in front of
the first element whose key is ≤ its own, hence in front of equal keys
coming from later input positions. -/
def insertByKeyDesc {α : Type} (key : α → ℚ) (x : α) : List α → List α
  | [] => [x]
  | y :: ys => if key y ≤ key x then x :: y :: ys else y :: insertByKeyDesc key x ys

/-- Stable sort, descending by a rational key.  Models
`Array.prototype.sort((a, b) => b.key - a.key)`, which ECMAScript
requires to be stable; a stable sort for a total preorder is unique, so
any stable implementation agrees with this one. -/
def sortByKeyDesc {α : Type} (key : α → ℚ) : List α → List α
  | [] => []
  | x :: xs => insertByKeyDesc key x (sortByKeyDesc key xs)

/-- Embedding of `calculateSimpleRevenue` (src/main.js lines 6-21): sum
of `sale_price * quantity` over the pseudo-purchase's items, then
`Number(revenue.toFixed(2))`.  The dynamic-shape throws of the source
are unreachable on typed values. -/
def calculateSimpleRevenue (purchase : PseudoPurchase) : ℚ :=
  round2 (purchase.items.foldl (fun revenue item => revenue + item.sale_price * item.quantity) 0)

/-- Embedding of `calculateBonusByProfit` (src/main.js lines 30-60).
The rate if-chain and its order are exactly the source's; `toFixed(2)`
is `round2`; the out-of-range and missing-profit throws are the
`Except.error` branches. -/
def calculateBonusByProfit (index total : ℤ) (seller : SellerObj) : Except String ℚ :=
  if index < 0 ∨ total ≤ index then .error "Index out of range"
  else
    match seller.profit with
    | none => .error "Seller profit must be a number"
    | some profit =>
      let bonusRate : ℚ :=
        if index = 0 then 15 / 100
        else if index ≤ 2 then 10 / 100
        else if index = total - 2 then 5 / 100
        else 0
      let positionMultiplier : ℚ := if seller.position = "Senior Seller" then 3 / 2 else 1
      .ok (round2 (profit * bonusRate * positionMultiplier))

/-- The default revenue strategy as passed in `options`. -/
def defaultCalcRev : PseudoPurchase → Except String ℚ :=
  fun purchase => .ok (calculateSimpleRevenue purchase)

/-- Options carrying the two default strategies of the source file. -/
def defaultOptions : Options :=
  { calculateRevenue := some defaultCalcRev
    calculateBonus := some calculateBonusByProfit }

/-- The fresh statistics object created for each seller while indexing
(src/main.js lines 112-119). -/
def initialStat (s : SellerObj) : SellerStat :=
  { seller_id := s.id
    name := s.first_name ++ " " ++ s.last_name
    revenue := 0
    profit := 0
    sales_count := 0
    products := [] }

/-- Indexing loop over `data.sellers` (src/main.js lines 105-120):
validates each seller, builds `sellersMap` and the initial
`sellersStats`. -/
def buildSellers (acc : List (String × SellerObj) × List (String × SellerStat)) :
    List SellerObj → Except String (List (String × SellerObj) × List (String × SellerStat))
  | [] => .ok acc
  | s :: rest =>
    if s.id = "" ∨ s.first_name = "" ∨ s.last_name = "" then .error "Invalid seller structure"
    else buildSellers (alistInsert s.id s acc.1, alistInsert s.id (initialStat s) acc.2) rest

/-- Indexing loop over `data.products` (src/main.js lines 123-130). -/
def buildProducts (acc : List (String × Product)) :
    List Product → Except String (List (String × Product))
  | [] => .ok acc
  | p :: rest =>
    if p.sku = "" ∨ p.name = "" then .error "Invalid product structure"
    else buildProducts (alistInsert p.sku p acc) rest

/-- Per-sku breakdown update (src/main.js lines 164-171): create the
`{count: 0, profit: 0}` entry on first sight of the sku, then
`count += quantity; profit += itemProfit`. -/
def updateBreakdown (sku : String) (qty ip : ℚ) :
    List (String × ProductStat) → List (String × ProductStat)
  | [] => [(sku, { count := qty, profit := ip })]
  | (k, v) :: rest =>
    if k = sku then (k, { count := v.count + qty, profit := v.profit + ip }) :: rest
    else (k, v) :: updateBreakdown sku qty ip rest

/-- Body of the inner item loop (src/main.js lines 146-172): validate
the item, skip it when its sku resolves to no product, otherwise obtain
the item revenue from the injected strategy and accumulate revenue,
profit and the per-sku breakdown. -/
def processItem (calcRev : PseudoPurchase → Except String ℚ)
    (productsMap : List (String × Product)) (st : SellerStat) (item : LineItem) :
    Except String SellerStat :=
  if item.sku = "" then .error "Invalid item structure"
  else
    match alistLookup item.sku productsMap with
    | none => .ok st
    | some product =>
      match calcRev { items := [item] } with
      | .error e => .error e
      | .ok itemRevenue =>
        let itemProfit := itemRevenue - product.purchase_price * item.quantity
        .ok { st with
          revenue := st.revenue + itemRevenue
          profit := st.profit + itemProfit
          products := updateBreakdown item.sku item.quantity itemProfit st.products }

/-- The inner item loop folded over a record's items. -/
def processItems (calcRev : PseudoPurchase → Except String ℚ)
    (productsMap : List (String × Product)) :
    SellerStat → List LineItem → Except String SellerStat
  | st, [] => .ok st
  | st, item :: rest =>
    match processItem calcRev productsMap st item with
    | .error e => .error e
    | .ok st2 => processItems calcRev productsMap st2 rest

/-- Body of the purchase-record loop (src/main.js lines 133-173):
validate the record, skip it silently when its seller_id resolves to no
statistics entry, otherwise bump `sales_count` and run the item loop. -/
def processRecord (calcRev : PseudoPurchase → Except String ℚ)
    (productsMap : List (String × Product)) (stats : List (String × SellerStat))
    (purchase : PurchaseRecord) : Except String (List (String × SellerStat)) :=
  if purchase.seller_id = "" then .error "Invalid purchase structure"
  else
    match alistLookup purchase.seller_id stats with
    | none => .ok stats
    | some st =>
      match processItems calcRev productsMap
          { st with sales_count := st.sales_count + 1 } purchase.items with
      | .error e => .error e
      | .ok st2 => .ok (alistInsert purchase.seller_id st2 stats)

/-- The purchase-record loop folded over `data.purchase_records`. -/
def aggregate (calcRev : PseudoPurchase → Except String ℚ)
    (productsMap : List (String × Product)) :
    List (String × SellerStat) → List PurchaseRecord →
    Except String (List (String × SellerStat))
  | stats, [] => .ok stats
  | stats, purchase :: rest =>
    match processRecord calcRev productsMap stats purchase with
    | .error e => .error e
    | .ok stats2 => aggregate calcRev productsMap stats2 rest

/-- One mapped entry of the top-products list (src/main.js lines
190-195): sku, name via `productsMap[sku]?.name || "Unknown"`, count,
and the per-product profit rounded to two decimals. -/
def topEntry (productsMap : List (String × Product)) (e : String × ProductStat) : TopProduct :=
  { sku := e.1
    name :=
      match alistLookup e.1 productsMap with
      | some p => if p.name = "" then "Unknown" else p.name
      | none => "Unknown"
    count := e.2.count
    profit := round2 e.2.profit }

/-- Top products of one seller (src/main.js lines 189-197): map the
breakdown entries, sort by (rounded) profit descending with the stable
sort, take the first three. -/
def topProducts (productsMap : List (String × Product))
    (breakdown : List (String × ProductStat)) : List TopProduct :=
  (sortByKeyDesc (fun t => t.profit) (breakdown.map (topEntry productsMap))).take 3

/-- Effect on `data.sellers` of the source's mutation
`sellerInfo.profit = seller.profit`: `sellersMap[id]` aliases the last
input seller carrying that id, so the write lands on that element. -/
def setProfitLast (k : String) (p : ℚ) : List SellerObj → List SellerObj
  | [] => []
  | s :: rest =>
    if rest.any (fun t => decide (t.id = k)) then s :: setProfitLast k p rest
    else if s.id = k then { s with profit := some p } :: rest
    else s :: rest

/-- The ranking forEach (src/main.js lines 180-200) plus the final map
(lines 203-211): for the seller at each zero-based index, mutate the
original seller record with the computed profit, call the bonus
strategy on it (a throw aborts the whole call), compute top products,
and emit the output record with revenue and profit rounded once.
Also returns the final (mutated) state of `data.sellers`. -/
def rankPhase (calcBonus : ℤ → ℤ → SellerObj → Except String ℚ)
    (sellersMap : List (String × SellerObj)) (productsMap : List (String × Product))
    (total : Nat) : Nat → List SellerObj → List SellerStat →
    Except String (List OutputRecord × List SellerObj)
  | _, sellers, [] => .ok ([], sellers)
  | index, sellers, st :: rest =>
    match alistLookup st.seller_id sellersMap with
    | none => .error "Cannot set properties of undefined"
    | some info =>
      let info2 : SellerObj := { info with profit := some st.profit }
      let sellers2 := setProfitLast st.seller_id st.profit sellers
      match calcBonus (index : ℤ) (total : ℤ) info2 with
      | .error e => .error e
      | .ok bonus =>
        match rankPhase calcBonus sellersMap productsMap total (index + 1) sellers2 rest with
        | .error e => .error e
        | .ok (outs, finalSellers) =>
          .ok ({ seller_id := st.seller_id
                 name := st.name
                 revenue := round2 st.revenue
                 profit := round2 st.profit
                 sales_count := st.sales_count
                 bonus := bonus
                 top_products := topProducts productsMap st.products } :: outs,
               finalSellers)

/-- Indexing and aggregation stages chained (src/main.js lines
101-173). -/
def pipelineStats (calcRev : PseudoPurchase → Except String ℚ) (data : Dataset) :
    Except String
      (List (String × SellerObj) × List (String × Product) × List (String × SellerStat)) :=
  match buildSellers ([], []) data.sellers with
  | .error e => .error e
  | .ok (sellersMap, stats0) =>
    match buildProducts [] data.products with
    | .error e => .error e
    | .ok productsMap =>
      match aggregate calcRev productsMap stats0 data.purchase_records with
      | .error e => .error e
      | .ok stats => .ok (sellersMap, productsMap, stats)

/-- Embedding of `analyzeSalesData` (src/main.js lines 68-211),
additionally returning the final state of the `data.sellers` objects
(the source mutates them in place).  Validation order is the source's:
dataset shape (vacuous on typed values), the three emptiness checks,
the two strategy checks, then per-seller, per-product and per-record
checks. -/
def analyzeSalesDataFull (data : Dataset) (options : Options) :
    Except String (List OutputRecord × List SellerObj) :=
  if data.sellers = [] then .error "Список продавцов пуст"
  else if data.products = [] then .error "Список товаров пуст"
  else if data.purchase_records = [] then .error "Список покупок пуст"
  else
    match options.calculateRevenue with
    | none => .error "calculateRevenue function is required"
    | some calcRev =>
      match options.calculateBonus with
      | none => .error "calculateBonus function is required"
      | some calcBonus =>
        match pipelineStats calcRev data with
        | .error e => .error e
        | .ok (sellersMap, productsMap, stats) =>
          let sortedSellers := sortByKeyDesc (fun st => st.profit) (stats.map Prod.snd)
          rankPhase calcBonus sellersMap productsMap sortedSellers.length 0
            data.sellers sortedSellers

/-- The value `analyzeSalesData` returns to its caller. -/
def analyzeSalesData (data : Dataset) (options : Options) :
    Except String (List OutputRecord) :=
  match analyzeSalesDataFull data options with
  | .error e => .error e
  | .ok (outs, _) => .ok outs

/-- The bonus rate as the specification words it: the first matching
rule among index = 0 → 0.15, index ≤ 2 → 0.10, index = total - 2 →
0.05, otherwise 0. -/
def specBonusRate (index total : ℤ) : ℚ :=
  if index = 0 then 15 / 100
  else if index ≤ 2 then 10 / 100
  else if index = total - 2 then 5 / 100
  else 0

/-- The senior multiplier as the specification words it: 1.5 exactly
when the position is the literal senior title. -/
def specSeniorMultiplier (position : String) : ℚ :=
  if position = "Senior Seller" then 3 / 2 else 1

/-- Revenue the default strategy reports for one line item:
`sale_price × quantity` rounded to two decimals inside the strategy. -/
def itemRevenue2dp (item : LineItem) : ℚ := round2 (item.sale_price * item.quantity)

/-- Sum of per-item (already rounded) revenues over the items of one
record whose sku resolves to a known product. -/
def matchedRevenue (productsMap : List (String × Product)) (items : List LineItem) : ℚ :=
  ((items.filter (fun it => (alistLookup it.sku productsMap).isSome)).map itemRevenue2dp).sum

/-- Accumulated (unrounded-sum-of-rounded-items) revenue a seller id
gathers from a record list under the default strategy. -/
def recordsRevenue (productsMap : List (String × Product)) (recs : List PurchaseRecord)
    (k : String) : ℚ :=
  ((recs.filter (fun r => decide (r.seller_id = k))).map
    (fun r => matchedRevenue productsMap r.items)).sum

/-- The four immutable fields of a seller record (everything except the
profit slot the ranking phase writes). -/
def sellerShape (s : SellerObj) : String × String × String × String :=
  (s.id, s.first_name, s.last_name, s.position)

/-! ### General lemmas: rounding, the stable sort, association lists -/

theorem round2_eq_intFloor (x : ℚ) : round2 x = (⌊x * 100 + 1 / 2⌋ : ℚ) / 100 := by
  unfold round2
  rw [Rat.floor_def', ← Rat.floor_def]

theorem round2_mono {x y : ℚ} (h : x ≤ y) : round2 x ≤ round2 y := by
  rw [round2_eq_intFloor, round2_eq_intFloor]
  have h1 : x * 100 + 1 / 2 ≤ y * 100 + 1 / 2 := by linarith
  have h2 : (⌊x * 100 + 1 / 2⌋ : ℤ) ≤ ⌊y * 100 + 1 / 2⌋ := Int.floor_le_floor h1
  have h3 : ((⌊x * 100 + 1 / 2⌋ : ℤ) : ℚ) ≤ ((⌊y * 100 + 1 / 2⌋ : ℤ) : ℚ) := by
    exact_mod_cast h2
  linarith

theorem mem_insertByKeyDesc {α : Type} (key : α → ℚ) (x z : α) (l : List α) :
    z ∈ insertByKeyDesc key x l ↔ z = x ∨ z ∈ l := by
  induction l with
  | nil => simp [insertByKeyDesc]
  | cons y ys ih =>
    simp only [insertByKeyDesc]
    split
    · simp [List.mem_cons]
    · simp only [List.mem_cons, ih]
      tauto

theorem perm_insertByKeyDesc {α : Type} (key : α → ℚ) (x : α) (l : List α) :
    List.Perm (insertByKeyDesc key x l) (x :: l) := by
  induction l with
  | nil => rfl
  | cons y ys ih =>
    simp only [insertByKeyDesc]
    split
    · exact List.Perm.refl _
    · exact (ih.cons y).trans (List.Perm.swap x y ys)

theorem perm_sortByKeyDesc {α : Type} (key : α → ℚ) (l : List α) :
    List.Perm (sortByKeyDesc key l) l := by
  induction l with
  | nil => rfl
  | cons x xs ih =>
    exact (perm_insertByKeyDesc key x (sortByKeyDesc key xs)).trans (ih.cons x)

theorem pairwise_insertByKeyDesc {α : Type} (key : α → ℚ) (x : α) {l : List α}
    (h : l.Pairwise (fun a b => key b ≤ key a)) :
    (insertByKeyDesc key x l).Pairwise (fun a b => key b ≤ key a) := by
  induction l with
  | nil => simp [insertByKeyDesc]
  | cons y ys ih =>
    rw [List.pairwise_cons] at h
    obtain ⟨hy, hys⟩ := h
    simp only [insertByKeyDesc]
    split
    case isTrue h1 =>
      rw [List.pairwise_cons]
      refine ⟨?_, List.pairwise_cons.mpr ⟨hy, hys⟩⟩
      intro z hz
      rcases List.mem_cons.mp hz with rfl | hz2
      · exact h1
      · exact le_trans (hy z hz2) h1
    case isFalse h1 =>
      rw [List.pairwise_cons]
      refine ⟨?_, ih hys⟩
      intro z hz
      rcases (mem_insertByKeyDesc key x z ys).mp hz with rfl | hz2
      · exact le_of_lt (lt_of_not_le h1)
      · exact hy z hz2

theorem pairwise_sortByKeyDesc {α : Type} (key : α → ℚ) (l : List α) :
    (sortByKeyDesc key l).Pairwise (fun a b => key b ≤ key a) := by
  induction l with
  | nil => simp [sortByKeyDesc]
  | cons x xs ih => exact pairwise_insertByKeyDesc key x ih

theorem filter_insertByKeyDesc {α : Type} (key : α → ℚ) (p : ℚ) (x : α) (l : List α) :
    (insertByKeyDesc key x l).filter (fun a => decide (key a = p)) =
      if key x = p then x :: l.filter (fun a => decide (key a = p))
      else l.filter (fun a => decide (key a = p)) := by
  induction l with
  | nil =>
    by_cases hx : key x = p <;> simp [insertByKeyDesc, List.filter_cons, hx]
  | cons y ys ih =>
    simp only [insertByKeyDesc]
    split
    case isTrue h1 =>
      by_cases hx : key x = p <;> simp [List.filter_cons, hx]
    case isFalse h1 =>
      by_cases hx : key x = p
      · have hy : ¬ key y = p := by
          intro hyp
          exact h1 (le_of_eq (hyp.trans hx.symm))
        simp [List.filter_cons, hx, hy, ih]
      · by_cases hy : key y = p <;> simp [List.filter_cons, hx, hy, ih]

theorem filter_sortByKeyDesc {α : Type} (key : α → ℚ) (p : ℚ) (l : List α) :
    (sortByKeyDesc key l).filter (fun a => decide (key a = p)) =
      l.filter (fun a => decide (key a = p)) := by
  induction l with
  | nil => rfl
  | cons x xs ih =>
    simp only [sortByKeyDesc]
    rw [filter_insertByKeyDesc]
    by_cases hx : key x = p <;> simp [List.filter_cons, hx, ih]

theorem length_sortByKeyDesc {α : Type} (key : α → ℚ) (l : List α) :
    (sortByKeyDesc key l).length = l.length :=
  (perm_sortByKeyDesc key l).length_eq

theorem alistLookup_insert_self {α : Type} (k : String) (v : α) (l : List (String × α)) :
    alistLookup k (alistInsert k v l) = some v := by
  induction l with
  | nil => simp [alistInsert, alistLookup]
  | cons e rest ih =>
    obtain ⟨k2, v2⟩ := e
    simp only [alistInsert]
    split
    case isTrue h => simp [alistLookup, h]
    case isFalse h => simp [alistLookup, h, ih]

theorem alistLookup_insert_of_ne {α : Type} (k k2 : String) (v : α) (l : List (String × α))
    (h : k ≠ k2) : alistLookup k2 (alistInsert k v l) = alistLookup k2 l := by
  induction l with
  | nil => simp [alistInsert, alistLookup, h]
  | cons e rest ih =>
    obtain ⟨k3, v3⟩ := e
    simp only [alistInsert]
    split
    case isTrue h3 =>
      subst h3
      simp [alistLookup, h]
    case isFalse h3 => simp [alistLookup, ih]

theorem alistLookup_mem {α : Type} (k : String) (v : α) (l : List (String × α))
    (h : alistLookup k l = some v) : (k, v) ∈ l := by
  induction l with
  | nil => simp [alistLookup] at h
  | cons e rest ih =>
    obtain ⟨k2, v2⟩ := e
    simp only [alistLookup] at h
    split at h
    case isTrue h2 =>
      obtain rfl : v2 = v := by simpa using h
      subst h2
      exact List.mem_cons_self _ _
    case isFalse h2 => exact List.mem_cons_of_mem _ (ih h)

theorem alistLookup_isSome_iff {α : Type} (k : String) (l : List (String × α)) :
    (alistLookup k l).isSome ↔ k ∈ l.map Prod.fst := by
  induction l with
  | nil => simp [alistLookup]
  | cons e rest ih =>
    obtain ⟨k2, v2⟩ := e
    simp only [alistLookup, List.map_cons, List.mem_cons]
    split
    case isTrue h2 => simp [h2]
    case isFalse h2 =>
      simp only [ih]
      constructor
      · exact Or.inr
      · rintro (rfl | hm)
        · exact absurd rfl h2
        · exact hm

theorem mem_alistInsert {α : Type} (k : String) (v : α) (l : List (String × α))
    (e : String × α) (he : e ∈ alistInsert k v l) : e = (k, v) ∨ e ∈ l := by
  induction l with
  | nil => simpa [alistInsert] using he
  | cons e2 rest ih =>
    obtain ⟨k2, v2⟩ := e2
    simp only [alistInsert] at he
    split at he
    case isTrue h2 =>
      subst h2
      rcases List.mem_cons.mp he with rfl | hm
      · exact Or.inl rfl
      · exact Or.inr (List.mem_cons_of_mem _ hm)
    case isFalse h2 =>
      rcases List.mem_cons.mp he with rfl | hm
      · exact Or.inr (List.mem_cons_self _ _)
      · rcases ih hm with h | h
        · exact Or.inl h
        · exact Or.inr (List.mem_cons_of_mem _ h)

theorem alistInsert_fst {α : Type} (k : String) (v : α) (l : List (String × α)) :
    (alistInsert k v l).map Prod.fst =
      if k ∈ l.map Prod.fst then l.map Prod.fst else l.map Prod.fst ++ [k] := by
  induction l with
  | nil => simp [alistInsert]
  | cons e rest ih =>
    obtain ⟨k2, v2⟩ := e
    simp only [alistInsert, List.map_cons]
    split
    case isTrue h2 =>
      subst h2
      simp
    case isFalse h2 =>
      have hne : ¬ k = k2 := fun h => h2 h.symm
      by_cases hm : k ∈ rest.map Prod.fst <;>
        simp [List.mem_cons, hne, hm, ih]

theorem alistInsert_fst_of_mem {α : Type} (k : String) (v : α) (l : List (String × α))
    (h : k ∈ l.map Prod.fst) : (alistInsert k v l).map Prod.fst = l.map Prod.fst := by
  rw [alistInsert_fst, if_pos h]

theorem alistInsert_nodup {α : Type} (k : String) (v : α) (l : List (String × α))
    (h : (l.map Prod.fst).Nodup) : ((alistInsert k v l).map Prod.fst).Nodup := by
  rw [alistInsert_fst]
  split
  case isTrue => exact h
  case isFalse hne =>
    simp only [List.nodup_append, List.nodup_cons]
    exact ⟨h, by simp, by simpa using fun hm => hne hm⟩

theorem alistLookup_of_mem_nodup {α : Type} (k : String) (v : α) (l : List (String × α))
    (hmem : (k, v) ∈ l) (hnd : (l.map Prod.fst).Nodup) : alistLookup k l = some v := by
  induction l with
  | nil => simp at hmem
  | cons e rest ih =>
    obtain ⟨k2, v2⟩ := e
    simp only [List.map_cons, List.nodup_cons] at hnd
    obtain ⟨hk2, hrest⟩ := hnd
    simp only [alistLookup]
    rcases List.mem_cons.mp hmem with heq | hm
    · simp only [Prod.mk.injEq] at heq
      obtain ⟨rfl, rfl⟩ := heq
      simp
    · have hne : ¬ k2 = k := by
        intro h
        subst h
        exact hk2 (List.mem_map_of_mem Prod.fst hm)
      simp only [if_neg hne]
      exact ih hm hrest

/-! ### Aggregation invariants -/

theorem processItem_preserve {calcRev : PseudoPurchase → Except String ℚ}
    {pm : List (String × Product)} {st : SellerStat} {item : LineItem} {st2 : SellerStat}
    (h : processItem calcRev pm st item = .ok st2) :
    st2.seller_id = st.seller_id ∧ st2.name = st.name ∧ st2.sales_count = st.sales_count := by
  by_cases hsku : item.sku = ""
  · simp [processItem, hsku] at h
  · cases hl : alistLookup item.sku pm with
    | none =>
      simp [processItem, hsku, hl] at h
      rw [← h]
      exact ⟨rfl, rfl, rfl⟩
    | some product =>
      cases hr : calcRev { items := [item] } with
      | error e => simp [processItem, hsku, hl, hr] at h
      | ok itemRevenue =>
        simp [processItem, hsku, hl, hr] at h
        rw [← h]
        exact ⟨rfl, rfl, rfl⟩

theorem processItems_preserve {calcRev : PseudoPurchase → Except String ℚ}
    {pm : List (String × Product)} :
    ∀ (items : List LineItem) (st st2 : SellerStat),
    processItems calcRev pm st items = .ok st2 →
    st2.seller_id = st.seller_id ∧ st2.name = st.name ∧ st2.sales_count = st.sales_count := by
  intro items
  induction items with
  | nil =>
    intro st st2 h
    obtain rfl : st = st2 := by simpa [processItems] using h
    exact ⟨rfl, rfl, rfl⟩
  | cons item rest ih =>
    intro st st2 h
    simp only [processItems] at h
    cases hi : processItem calcRev pm st item with
    | error e => rw [hi] at h; simp at h
    | ok st1 =>
      rw [hi] at h
      obtain ⟨h1, h2, h3⟩ := ih st1 st2 h
      obtain ⟨g1, g2, g3⟩ := processItem_preserve hi
      exact ⟨h1.trans g1, h2.trans g2, h3.trans g3⟩

theorem processRecord_fst {calcRev : PseudoPurchase → Except String ℚ}
    {pm : List (String × Product)} {stats : List (String × SellerStat)}
    {purchase : PurchaseRecord} {stats2 : List (String × SellerStat)}
    (h : processRecord calcRev pm stats purchase = .ok stats2) :
    stats2.map Prod.fst = stats.map Prod.fst := by
  by_cases hsid : purchase.seller_id = ""
  · simp [processRecord, hsid] at h
  · cases hl : alistLookup purchase.seller_id stats with
    | none =>
      simp [processRecord, hsid, hl] at h
      rw [← h]
    | some st =>
      cases hit : processItems calcRev pm { st with sales_count := st.sales_count + 1 }
          purchase.items with
      | error e => simp [processRecord, hsid, hl, hit] at h
      | ok st2 =>
        simp [processRecord, hsid, hl, hit] at h
        rw [← h]
        exact alistInsert_fst_of_mem _ _ _
          (List.mem_map_of_mem Prod.fst (alistLookup_mem _ _ _ hl))

theorem aggregate_fst {calcRev : PseudoPurchase → Except String ℚ}
    {pm : List (String × Product)} :
    ∀ (recs : List PurchaseRecord) (stats stats2 : List (String × SellerStat)),
    aggregate calcRev pm stats recs = .ok stats2 →
    stats2.map Prod.fst = stats.map Prod.fst := by
  intro recs
  induction recs with
  | nil =>
    intro stats stats2 h
    obtain rfl : stats = stats2 := by simpa [aggregate] using h
    rfl
  | cons purchase rest ih =>
    intro stats stats2 h
    simp only [aggregate] at h
    cases hr : processRecord calcRev pm stats purchase with
    | error e => rw [hr] at h; simp at h
    | ok stats1 =>
      rw [hr] at h
      exact (ih stats1 stats2 h).trans (processRecord_fst hr)

theorem processRecord_mem_inv {calcRev : PseudoPurchase → Except String ℚ}
    {pm : List (String × Product)} {stats : List (String × SellerStat)}
    {purchase : PurchaseRecord} {stats2 : List (String × SellerStat)}
    (h : processRecord calcRev pm stats purchase = .ok stats2)
    (hinv : ∀ e ∈ stats, (e.2).seller_id = e.1) :
    ∀ e ∈ stats2, (e.2).seller_id = e.1 := by
  by_cases hsid : purchase.seller_id = ""
  · simp [processRecord, hsid] at h
  · cases hl : alistLookup purchase.seller_id stats with
    | none =>
      simp [processRecord, hsid, hl] at h
      rw [← h]
      exact hinv
    | some st =>
      cases hit : processItems calcRev pm { st with sales_count := st.sales_count + 1 }
          purchase.items with
      | error e => simp [processRecord, hsid, hl, hit] at h
      | ok st2 =>
        simp [processRecord, hsid, hl, hit] at h
        rw [← h]
        intro e he
        rcases mem_alistInsert _ _ _ _ he with rfl | hm
        · obtain ⟨g1, g2, g3⟩ := processItems_preserve _ _ _ hit
          have := hinv _ (alistLookup_mem _ _ _ hl)
          simpa [g1] using this
        · exact hinv _ hm

theorem aggregate_mem_inv {calcRev : PseudoPurchase → Except String ℚ}
    {pm : List (String × Product)} :
    ∀ (recs : List PurchaseRecord) (stats stats2 : List (String × SellerStat)),
    aggregate calcRev pm stats recs = .ok stats2 →
    (∀ e ∈ stats, (e.2).seller_id = e.1) →
    ∀ e ∈ stats2, (e.2).seller_id = e.1 := by
  intro recs
  induction recs with
  | nil =>
    intro stats stats2 h hinv
    obtain rfl : stats = stats2 := by simpa [aggregate] using h
    exact hinv
  | cons purchase rest ih =>
    intro stats stats2 h hinv
    simp only [aggregate] at h
    cases hr : processRecord calcRev pm stats purchase with
    | error e => rw [hr] at h; simp at h
    | ok stats1 =>
      rw [hr] at h
      exact ih stats1 stats2 h (processRecord_mem_inv hr hinv)

theorem processRecord_lookup {calcRev : PseudoPurchase → Except String ℚ}
    {pm : List (String × Product)} {stats : List (String × SellerStat)}
    {purchase : PurchaseRecord} {stats2 : List (String × SellerStat)}
    (h : processRecord calcRev pm stats purchase = .ok stats2)
    (k : String) (st : SellerStat) (hl : alistLookup k stats = some st) :
    ∃ st2, alistLookup k stats2 = some st2 ∧
      st2.sales_count = st.sales_count + (if purchase.seller_id = k then 1 else 0) := by
  by_cases hsid : purchase.seller_id = ""
  · simp [processRecord, hsid] at h
  · cases hl2 : alistLookup purchase.seller_id stats with
    | none =>
      simp [processRecord, hsid, hl2] at h
      have hne : ¬ purchase.seller_id = k := by
        intro hk
        rw [hk, hl] at hl2
        exact Option.noConfusion hl2
      exact ⟨st, by rw [← h]; exact hl, by simp [hne]⟩
    | some st0 =>
      cases hit : processItems calcRev pm { st0 with sales_count := st0.sales_count + 1 }
          purchase.items with
      | error e => simp [processRecord, hsid, hl2, hit] at h
      | ok st2 =>
        simp [processRecord, hsid, hl2, hit] at h
        by_cases hk : purchase.seller_id = k
        · subst hk
          obtain rfl : st0 = st := by
            have := hl2.symm.trans hl
            simpa using this
          refine ⟨st2, ?_, ?_⟩
          · rw [← h]
            exact alistLookup_insert_self _ _ _
          · obtain ⟨g1, g2, g3⟩ := processItems_preserve _ _ _ hit
            simp [g3]
        · refine ⟨st, ?_, by simp [hk]⟩
          rw [← h]
          rw [alistLookup_insert_of_ne _ _ _ _ hk]
          exact hl

theorem aggregate_salesCount {calcRev : PseudoPurchase → Except String ℚ}
    {pm : List (String × Product)} :
    ∀ (recs : List PurchaseRecord) (stats stats2 : List (String × SellerStat))
    (k : String) (st : SellerStat),
    aggregate calcRev pm stats recs = .ok stats2 →
    alistLookup k stats = some st →
    ∃ st2, alistLookup k stats2 = some st2 ∧
      st2.sales_count = st.sales_count + recs.countP (fun r => decide (r.seller_id = k)) := by
  intro recs
  induction recs with
  | nil =>
    intro stats stats2 k st h hl
    obtain rfl : stats = stats2 := by simpa [aggregate] using h
    exact ⟨st, hl, by simp⟩
  | cons purchase rest ih =>
    intro stats stats2 k st h hl
    simp only [aggregate] at h
    cases hr : processRecord calcRev pm stats purchase with
    | error e => rw [hr] at h; simp at h
    | ok stats1 =>
      rw [hr] at h
      obtain ⟨st1, hl1, hc1⟩ := processRecord_lookup hr k st hl
      obtain ⟨st2, hl2, hc2⟩ := ih stats1 stats2 k st1 h hl1
      refine ⟨st2, hl2, ?_⟩
      rw [hc2, hc1, List.countP_cons]
      by_cases hk : purchase.seller_id = k
      all_goals simp [hk]
      all_goals omega

theorem processItems_revenue {pm : List (String × Product)} :
    ∀ (items : List LineItem) (st st2 : SellerStat),
    processItems defaultCalcRev pm st items = .ok st2 →
    st2.revenue = st.revenue + matchedRevenue pm items := by
  intro items
  induction items with
  | nil =>
    intro st st2 h
    obtain rfl : st = st2 := by simpa [processItems] using h
    simp [matchedRevenue]
  | cons item rest ih =>
    intro st st2 h
    simp only [processItems] at h
    by_cases hsku : item.sku = ""
    · simp [processItem, hsku] at h
    · cases hl : alistLookup item.sku pm with
      | none =>
        rw [show processItem defaultCalcRev pm st item = .ok st by
              simp [processItem, hsku, hl]] at h
        rw [ih st st2 h]
        simp [matchedRevenue, List.filter_cons, hl]
      | some product =>
        have hstep : processItem defaultCalcRev pm st item =
            .ok { st with
              revenue := st.revenue + itemRevenue2dp item
              profit := st.profit +
                (itemRevenue2dp item - product.purchase_price * item.quantity)
              products := updateBreakdown item.sku item.quantity
                (itemRevenue2dp item - product.purchase_price * item.quantity) st.products } := by
          simp [processItem, hsku, hl, defaultCalcRev, calculateSimpleRevenue,
            itemRevenue2dp]
        rw [hstep] at h
        rw [ih _ st2 h]
        simp [matchedRevenue, List.filter_cons, hl]
        ring

theorem processRecord_revenue {pm : List (String × Product)}
    {stats : List (String × SellerStat)} {purchase : PurchaseRecord}
    {stats2 : List (String × SellerStat)}
    (h : processRecord defaultCalcRev pm stats purchase = .ok stats2)
    (k : String) (st : SellerStat) (hl : alistLookup k stats = some st) :
    ∃ st2, alistLookup k stats2 = some st2 ∧
      st2.revenue = st.revenue +
        (if purchase.seller_id = k then matchedRevenue pm purchase.items else 0) := by
  by_cases hsid : purchase.seller_id = ""
  · simp [processRecord, hsid] at h
  · cases hl2 : alistLookup purchase.seller_id stats with
    | none =>
      simp [processRecord, hsid, hl2] at h
      have hne : ¬ purchase.seller_id = k := by
        intro hk
        rw [hk, hl] at hl2
        exact Option.noConfusion hl2
      exact ⟨st, by rw [← h]; exact hl, by simp [hne]⟩
    | some st0 =>
      cases hit : processItems defaultCalcRev pm { st0 with sales_count := st0.sales_count + 1 }
          purchase.items with
      | error e => simp [processRecord, hsid, hl2, hit] at h
      | ok st2 =>
        simp [processRecord, hsid, hl2, hit] at h
        by_cases hk : purchase.seller_id = k
        · subst hk
          obtain rfl : st0 = st := by
            have := hl2.symm.trans hl
            simpa using this
          refine ⟨st2, ?_, ?_⟩
          · rw [← h]
            exact alistLookup_insert_self _ _ _
          · have := processItems_revenue _ _ _ hit
            simpa using this
        · refine ⟨st, ?_, by simp [hk]⟩
          rw [← h]
          rw [alistLookup_insert_of_ne _ _ _ _ hk]
          exact hl

theorem aggregate_revenue {pm : List (String × Product)} :
    ∀ (recs : List PurchaseRecord) (stats stats2 : List (String × SellerStat))
    (k : String) (st : SellerStat),
    aggregate defaultCalcRev pm stats recs = .ok stats2 →
    alistLookup k stats = some st →
    ∃ st2, alistLookup k stats2 = some st2 ∧
      st2.revenue = st.revenue + recordsRevenue pm recs k := by
  intro recs
  induction recs with
  | nil =>
    intro stats stats2 k st h hl
    obtain rfl : stats = stats2 := by simpa [aggregate] using h
    exact ⟨st, hl, by simp [recordsRevenue]⟩
  | cons purchase rest ih =>
    intro stats stats2 k st h hl
    simp only [aggregate] at h
    cases hr : processRecord defaultCalcRev pm stats purchase with
    | error e => rw [hr] at h; simp at h
    | ok stats1 =>
      rw [hr] at h
      obtain ⟨st1, hl1, hc1⟩ := processRecord_revenue hr k st hl
      obtain ⟨st2, hl2, hc2⟩ := ih stats1 stats2 k st1 h hl1
      refine ⟨st2, hl2, ?_⟩
      rw [hc2, hc1]
      by_cases hk : purchase.seller_id = k
      all_goals simp [recordsRevenue, List.filter_cons, hk]
      all_goals ring

/-! ### Indexing invariants -/

theorem buildSellers_inv (P : String × SellerStat → Prop)
    (hinit : ∀ s : SellerObj, P (s.id, initialStat s)) :
    ∀ (sellers : List SellerObj) (acc : List (String × SellerObj) × List (String × SellerStat))
    (m : List (String × SellerObj)) (st0 : List (String × SellerStat)),
    buildSellers acc sellers = .ok (m, st0) →
    (∀ e ∈ acc.2, P e) →
    ∀ e ∈ st0, P e := by
  intro sellers
  induction sellers with
  | nil =>
    intro acc m st0 h hacc
    obtain ⟨rfl, rfl⟩ : acc.1 = m ∧ acc.2 = st0 := by
      simpa [buildSellers, Prod.ext_iff] using h
    exact hacc
  | cons s rest ih =>
    intro acc m st0 h hacc
    simp only [buildSellers] at h
    split at h
    · simp at h
    · refine ih _ m st0 h ?_
      intro e he
      rcases mem_alistInsert _ _ _ _ he with rfl | hm
      · exact hinit s
      · exact hacc e hm

theorem buildSellers_nodup :
    ∀ (sellers : List SellerObj) (acc : List (String × SellerObj) × List (String × SellerStat))
    (m : List (String × SellerObj)) (st0 : List (String × SellerStat)),
    buildSellers acc sellers = .ok (m, st0) →
    (acc.2.map Prod.fst).Nodup →
    (st0.map Prod.fst).Nodup := by
  intro sellers
  induction sellers with
  | nil =>
    intro acc m st0 h hacc
    obtain ⟨rfl, rfl⟩ : acc.1 = m ∧ acc.2 = st0 := by
      simpa [buildSellers, Prod.ext_iff] using h
    exact hacc
  | cons s rest ih =>
    intro acc m st0 h hacc
    simp only [buildSellers] at h
    split at h
    · simp at h
    · exact ih _ m st0 h (alistInsert_nodup _ _ _ hacc)

theorem buildSellers_keys :
    ∀ (sellers : List SellerObj) (acc : List (String × SellerObj) × List (String × SellerStat))
    (m : List (String × SellerObj)) (st0 : List (String × SellerStat)),
    buildSellers acc sellers = .ok (m, st0) →
    (∀ s ∈ sellers, s.id ∉ acc.2.map Prod.fst) →
    (sellers.map (fun s => s.id)).Nodup →
    st0.map Prod.fst = acc.2.map Prod.fst ++ sellers.map (fun s => s.id) := by
  intro sellers
  induction sellers with
  | nil =>
    intro acc m st0 h hfresh hnd
    obtain ⟨rfl, rfl⟩ : acc.1 = m ∧ acc.2 = st0 := by
      simpa [buildSellers, Prod.ext_iff] using h
    simp
  | cons s rest ih =>
    intro acc m st0 h hfresh hnd
    simp only [buildSellers] at h
    split at h
    · simp at h
    · simp only [List.map_cons, List.nodup_cons] at hnd
      obtain ⟨hs, hrest⟩ := hnd
      have hkey : (alistInsert s.id (initialStat s) acc.2).map Prod.fst =
          acc.2.map Prod.fst ++ [s.id] := by
        rw [alistInsert_fst, if_neg (hfresh s (List.mem_cons_self s rest))]
      have := ih _ m st0 h ?_ hrest
      · rw [this, hkey, List.append_assoc]
        simp
      · intro t ht
        rw [hkey]
        simp only [List.mem_append, List.mem_singleton]
        rintro (hm | hm)
        · exact hfresh t (List.mem_cons_of_mem s ht) hm
        · exact hs (hm ▸ List.mem_map_of_mem (fun s => s.id) ht)

/-! ### Ranking-phase correspondence -/

theorem rankPhase_maps (cb : ℤ → ℤ → SellerObj → Except String ℚ)
    (sm : List (String × SellerObj)) (pm : List (String × Product)) (total : Nat) :
    ∀ (sorted : List SellerStat) (i : Nat) (sellers : List SellerObj)
    (outs : List OutputRecord) (fs : List SellerObj),
    rankPhase cb sm pm total i sellers sorted = .ok (outs, fs) →
    outs.map (fun r => (r.seller_id, r.profit)) =
      sorted.map (fun st => (st.seller_id, round2 st.profit)) ∧
    outs.map (fun r => (r.seller_id, r.sales_count)) =
      sorted.map (fun st => (st.seller_id, st.sales_count)) ∧
    outs.map (fun r => (r.seller_id, r.revenue)) =
      sorted.map (fun st => (st.seller_id, round2 st.revenue)) ∧
    outs.map (fun r => (r.seller_id, r.top_products)) =
      sorted.map (fun st => (st.seller_id, topProducts pm st.products)) := by
  intro sorted
  induction sorted with
  | nil =>
    intro i sellers outs fs h
    obtain ⟨rfl, rfl⟩ : ([] : List OutputRecord) = outs ∧ sellers = fs := by
      simpa [rankPhase, Prod.ext_iff] using h
    simp
  | cons st rest ih =>
    intro i sellers outs fs h
    simp only [rankPhase] at h
    cases hl : alistLookup st.seller_id sm with
    | none => simp [hl] at h
    | some info =>
      simp only [hl] at h
      cases hb : cb (i : ℤ) (total : ℤ) { info with profit := some st.profit } with
      | error e => simp [hb] at h
      | ok bonus =>
        simp only [hb] at h
        cases hrec : rankPhase cb sm pm total (i + 1)
            (setProfitLast st.seller_id st.profit sellers) rest with
        | error e => simp [hrec] at h
        | ok pr =>
          obtain ⟨outs2, fs2⟩ := pr
          simp only [hrec] at h
          simp only [Except.ok.injEq, Prod.mk.injEq] at h
          obtain ⟨h1, h2⟩ := h
          subst h1
          subst h2
          obtain ⟨g1, g2, g3, g4⟩ := ih (i + 1) _ outs2 fs2 hrec
          exact ⟨by simp [g1], by simp [g2], by simp [g3], by simp [g4]⟩

theorem rankPhase_sellers (cb : ℤ → ℤ → SellerObj → Except String ℚ)
    (sm : List (String × SellerObj)) (pm : List (String × Product)) (total : Nat) :
    ∀ (sorted : List SellerStat) (i : Nat) (sellers : List SellerObj)
    (outs : List OutputRecord) (fs : List SellerObj),
    rankPhase cb sm pm total i sellers sorted = .ok (outs, fs) →
    fs = sorted.foldl (fun acc st => setProfitLast st.seller_id st.profit acc) sellers := by
  intro sorted
  induction sorted with
  | nil =>
    intro i sellers outs fs h
    obtain ⟨rfl, rfl⟩ : ([] : List OutputRecord) = outs ∧ sellers = fs := by
      simpa [rankPhase, Prod.ext_iff] using h
    simp
  | cons st rest ih =>
    intro i sellers outs fs h
    simp only [rankPhase] at h
    cases hl : alistLookup st.seller_id sm with
    | none => simp [hl] at h
    | some info =>
      simp only [hl] at h
      cases hb : cb (i : ℤ) (total : ℤ) { info with profit := some st.profit } with
      | error e => simp [hb] at h
      | ok bonus =>
        simp only [hb] at h
        cases hrec : rankPhase cb sm pm total (i + 1)
            (setProfitLast st.seller_id st.profit sellers) rest with
        | error e => simp [hrec] at h
        | ok pr =>
          obtain ⟨outs2, fs2⟩ := pr
          simp only [hrec] at h
          simp only [Except.ok.injEq, Prod.mk.injEq] at h
          obtain ⟨h1, h2⟩ := h
          subst h2
          simpa using ih (i + 1) _ outs2 fs2 hrec

/-! ### The profit mutation on the input sellers -/

theorem setProfitLast_shape (k : String) (p : ℚ) (l : List SellerObj) :
    (setProfitLast k p l).map sellerShape = l.map sellerShape := by
  induction l with
  | nil => rfl
  | cons s rest ih =>
    simp only [setProfitLast]
    split
    · simp [ih]
    · split
      · simp [sellerShape]
      · rfl

theorem setProfitLast_ids (k : String) (p : ℚ) (l : List SellerObj) :
    (setProfitLast k p l).map (fun s => s.id) = l.map (fun s => s.id) := by
  induction l with
  | nil => rfl
  | cons s rest ih =>
    simp only [setProfitLast]
    split
    · simp [ih]
    · split
      · simp
      · rfl

theorem foldl_setProfit_shape :
    ∀ (L : List SellerStat) (sellers : List SellerObj),
    ((L.foldl (fun acc st => setProfitLast st.seller_id st.profit acc) sellers).map sellerShape) =
      sellers.map sellerShape := by
  intro L
  induction L with
  | nil => intro sellers; rfl
  | cons st rest ih =>
    intro sellers
    simp only [List.foldl_cons]
    rw [ih, setProfitLast_shape]

theorem setProfitLast_eq_map (k : String) (p : ℚ) :
    ∀ (l : List SellerObj), ((l.map (fun s => s.id)).Nodup) →
    setProfitLast k p l =
      l.map (fun s => if s.id = k then { s with profit := some p } else s) := by
  intro l
  induction l with
  | nil => intro h; rfl
  | cons s rest ih =>
    intro h
    simp only [List.map_cons, List.nodup_cons] at h
    obtain ⟨hs, hrest⟩ := h
    simp only [setProfitLast]
    by_cases hany : rest.any (fun t => decide (t.id = k)) = true
    · have hk : k ∈ rest.map (fun s => s.id) := by
        obtain ⟨t, ht, hteq⟩ := List.any_eq_true.mp hany
        exact (of_decide_eq_true hteq) ▸ List.mem_map_of_mem (fun s => s.id) ht
      have hsk : ¬ s.id = k := fun hid => hs (hid ▸ hk)
      rw [if_pos hany, ih hrest, List.map_cons, if_neg hsk]
    · have hnone : ∀ t ∈ rest, ¬ t.id = k := by
        intro t ht hteq
        exact hany (List.any_eq_true.mpr ⟨t, ht, decide_eq_true hteq⟩)
      have hmap : rest.map (fun s => if s.id = k then { s with profit := some p } else s) =
          rest := by
        have := List.map_congr_left (l := rest)
          (f := fun s => if s.id = k then { s with profit := some p } else s) (g := id)
          (fun t ht => by simp [hnone t ht])
        simpa using this
      rw [if_neg hany, List.map_cons, hmap]
      by_cases hsk : s.id = k
      · rw [if_pos hsk, if_pos hsk]
      · rw [if_neg hsk, if_neg hsk]

theorem foldl_setProfit_eq_map :
    ∀ (L : List SellerStat) (sellers : List SellerObj),
    (sellers.map (fun s => s.id)).Nodup →
    (L.map (fun st => st.seller_id)).Nodup →
    L.foldl (fun acc st => setProfitLast st.seller_id st.profit acc) sellers =
      sellers.map (fun s =>
        match L.find? (fun st => decide (st.seller_id = s.id)) with
        | some st => { s with profit := some st.profit }
        | none => s) := by
  intro L
  induction L with
  | nil =>
    intro sellers hs hL
    simp [List.find?]
  | cons st0 L2 ih =>
    intro sellers hs hL
    simp only [List.map_cons, List.nodup_cons] at hL
    obtain ⟨hL0, hL2⟩ := hL
    simp only [List.foldl_cons]
    have hids : ((setProfitLast st0.seller_id st0.profit sellers).map (fun s => s.id)).Nodup := by
      rw [setProfitLast_ids]
      exact hs
    rw [ih _ hids hL2, setProfitLast_eq_map _ _ _ hs, List.map_map]
    apply List.map_congr_left
    intro s hsm
    by_cases hsk : s.id = st0.seller_id
    · have hnone : L2.find? (fun st => decide (st.seller_id = s.id)) = none := by
        rw [List.find?_eq_none]
        intro x hx hdec
        have : x.seller_id = s.id := of_decide_eq_true hdec
        exact hL0 (this.trans hsk ▸ List.mem_map_of_mem (fun st => st.seller_id) hx)
      have hfind : (st0 :: L2).find? (fun st => decide (st.seller_id = s.id)) = some st0 :=
        List.find?_cons_of_pos _ (decide_eq_true hsk.symm)
      simp [Function.comp, if_pos hsk, hfind, hnone]
    · have hfind : (st0 :: L2).find? (fun st => decide (st.seller_id = s.id)) =
          L2.find? (fun st => decide (st.seller_id = s.id)) :=
        List.find?_cons_of_neg _ (by
          simp only [decide_eq_true_eq]
          exact fun hx => hsk hx.symm)
      simp only [Function.comp, if_neg hsk, hfind]

/-! ### Inversion of a successful run into its stages -/

theorem pipelineStats_ok_inv (calcRev : PseudoPurchase → Except String ℚ) (d : Dataset)
    (sm : List (String × SellerObj)) (pm : List (String × Product))
    (stats : List (String × SellerStat))
    (h : pipelineStats calcRev d = .ok (sm, pm, stats)) :
    ∃ stats0, buildSellers ([], []) d.sellers = .ok (sm, stats0) ∧
      buildProducts [] d.products = .ok pm ∧
      aggregate calcRev pm stats0 d.purchase_records = .ok stats := by
  unfold pipelineStats at h
  cases hb : buildSellers ([], []) d.sellers with
  | error e => simp [hb] at h
  | ok p =>
    obtain ⟨sm0, stats0⟩ := p
    simp only [hb] at h
    cases hp : buildProducts [] d.products with
    | error e => simp [hp] at h
    | ok pm0 =>
      simp only [hp] at h
      cases ha : aggregate calcRev pm0 stats0 d.purchase_records with
      | error e => simp [ha] at h
      | ok stats1 =>
        simp only [ha, Except.ok.injEq, Prod.mk.injEq] at h
        obtain ⟨rfl, rfl, rfl⟩ := h
        exact ⟨stats0, by simp [hb], by simp [hp], by simp [ha]⟩

theorem analyzeFull_ok_inv (d : Dataset) (o : Options) (outs : List OutputRecord)
    (fs : List SellerObj) (h : analyzeSalesDataFull d o = .ok (outs, fs)) :
    ∃ calcRev calcBonus sm pm stats,
      o.calculateRevenue = some calcRev ∧ o.calculateBonus = some calcBonus ∧
      pipelineStats calcRev d = .ok (sm, pm, stats) ∧
      rankPhase calcBonus sm pm
        (sortByKeyDesc (fun st => st.profit) (stats.map Prod.snd)).length 0 d.sellers
        (sortByKeyDesc (fun st => st.profit) (stats.map Prod.snd)) = .ok (outs, fs) := by
  unfold analyzeSalesDataFull at h
  by_cases h1 : d.sellers = []
  · rw [if_pos h1] at h
    simp at h
  rw [if_neg h1] at h
  by_cases h2 : d.products = []
  · rw [if_pos h2] at h
    simp at h
  rw [if_neg h2] at h
  by_cases h3 : d.purchase_records = []
  · rw [if_pos h3] at h
    simp at h
  rw [if_neg h3] at h
  cases hcr : o.calculateRevenue with
  | none => simp [hcr] at h
  | some calcRev =>
    simp only [hcr] at h
    cases hcb : o.calculateBonus with
    | none => simp [hcb] at h
    | some calcBonus =>
      simp only [hcb] at h
      cases hps : pipelineStats calcRev d with
      | error e => simp [hps] at h
      | ok p =>
        obtain ⟨sm, pm, stats⟩ := p
        simp only [hps] at h
        exact ⟨calcRev, calcBonus, sm, pm, stats, rfl, rfl, hps, h⟩

theorem analyzeSalesData_ok_iff (d : Dataset) (o : Options) (outs : List OutputRecord) :
    analyzeSalesData d o = .ok outs ↔
      ∃ fs, analyzeSalesDataFull d o = .ok (outs, fs) := by
  unfold analyzeSalesData
  cases h : analyzeSalesDataFull d o with
  | error e => simp
  | ok p =>
    obtain ⟨outs2, fs2⟩ := p
    simp only [Except.ok.injEq, Prod.mk.injEq]
    constructor
    · rintro rfl
      exact ⟨fs2, rfl, rfl⟩
    · rintro ⟨fs, rfl, rfl⟩
      rfl

theorem buildSellers_entries (sellers : List SellerObj) (sm : List (String × SellerObj))
    (stats0 : List (String × SellerStat))
    (h : buildSellers ([], []) sellers = .ok (sm, stats0)) :
    ∀ e ∈ stats0, (e.2).seller_id = e.1 ∧ (e.2).sales_count = 0 ∧ (e.2).revenue = 0 :=
  buildSellers_inv
    (fun e => (e.2).seller_id = e.1 ∧ (e.2).sales_count = 0 ∧ (e.2).revenue = 0)
    (fun _ => ⟨rfl, rfl, rfl⟩) sellers ([], []) sm stats0 h (by simp)

theorem stats_facts (d : Dataset) (calcRev : PseudoPurchase → Except String ℚ)
    (sm : List (String × SellerObj)) (pm : List (String × Product))
    (stats0 stats : List (String × SellerStat))
    (hbs : buildSellers ([], []) d.sellers = .ok (sm, stats0))
    (hagg : aggregate calcRev pm stats0 d.purchase_records = .ok stats) :
    (stats.map Prod.fst).Nodup ∧
    (∀ e ∈ stats, (e.2).seller_id = e.1) ∧
    stats.map Prod.fst = stats0.map Prod.fst ∧
    ((d.sellers.map (fun s => s.id)).Nodup →
      stats.map Prod.fst = d.sellers.map (fun s => s.id)) := by
  have hfst : stats.map Prod.fst = stats0.map Prod.fst :=
    aggregate_fst _ _ _ hagg
  have hnd0 : (stats0.map Prod.fst).Nodup :=
    buildSellers_nodup d.sellers ([], []) sm stats0 hbs (by simp)
  refine ⟨hfst ▸ hnd0, ?_, hfst, ?_⟩
  · exact aggregate_mem_inv d.purchase_records stats0 stats hagg
      (fun e he => (buildSellers_entries d.sellers sm stats0 hbs e he).1)
  · intro hnd
    rw [hfst, buildSellers_keys d.sellers ([], []) sm stats0 hbs (by simp) hnd]
    simp

theorem statsVals_ids (stats : List (String × SellerStat))
    (hinv : ∀ e ∈ stats, (e.2).seller_id = e.1) :
    (stats.map Prod.snd).map (fun st => st.seller_id) = stats.map Prod.fst := by
  rw [List.map_map]
  exact List.map_congr_left (fun e he => hinv e he)

/-! ### Concrete datasets used by witnesses and counterexamples -/

/-- Two sellers (the second a Senior Seller with no purchases), two
products, three purchase records: one with an unknown-sku line item, one
with an unknown seller id. -/
def exDataA : Dataset :=
  { sellers :=
      [{ id := "s1", first_name := "Ann", last_name := "Lee", position := "Junior",
         profit := none },
       { id := "s2", first_name := "Bob", last_name := "Kim", position := "Senior Seller",
         profit := none }]
    products :=
      [{ sku := "p1", name := "Gad", purchase_price := 1 },
       { sku := "p2", name := "Wid", purchase_price := 2 }]
    purchase_records :=
      [{ seller_id := "s1",
         items := [{ sku := "p1", sale_price := 3, quantity := 1 },
                   { sku := "px", sale_price := 100, quantity := 1 }] },
       { seller_id := "s3", items := [{ sku := "p2", sale_price := 5, quantity := 2 }] },
       { seller_id := "s1", items := [{ sku := "p2", sale_price := 4, quantity := 1 }] }] }

/-- First output record of `analyzeSalesData exDataA defaultOptions`. -/
def exOutA1 : OutputRecord :=
  { seller_id := "s1", name := "Ann Lee", revenue := 7, profit := 4, sales_count := 2,
    bonus := 3 / 5,
    top_products :=
      [{ sku := "p1", name := "Gad", count := 1, profit := 2 },
       { sku := "p2", name := "Wid", count := 1, profit := 2 }] }

/-- Second output record of `analyzeSalesData exDataA defaultOptions`:
seller s2 appears although no purchase record is attributed to it. -/
def exOutA2 : OutputRecord :=
  { seller_id := "s2", name := "Bob Kim", revenue := 0, profit := 0, sales_count := 0,
    bonus := 0, top_products := [] }

/-- The output records `analyzeSalesData exDataA defaultOptions` returns. -/
def exOutA : List OutputRecord := [exOutA1, exOutA2]

/-- The state of `exDataA.sellers` after the call: both sellers were
mutated with a `profit` field. -/
def exFsA : List SellerObj :=
  [{ id := "s1", first_name := "Ann", last_name := "Lee", position := "Junior",
     profit := some 4 },
   { id := "s2", first_name := "Bob", last_name := "Kim", position := "Senior Seller",
     profit := some 0 }]

/-- Options with both required strategies missing. -/
def noStrategyOptions : Options := { calculateRevenue := none, calculateBonus := none }

/-- A dataset whose three collections are all empty. -/
def emptyDataset : Dataset := { sellers := [], products := [], purchase_records := [] }

theorem exDataA_run : analyzeSalesDataFull exDataA defaultOptions = .ok (exOutA, exFsA) := by
  rfl

/-! ### Claim C1 -/

/-- Claim C1: for every total ≥ 1 and every index with 0 ≤ index < total,
the default bonus strategy `calculateBonusByProfit` returns
`seller.profit × rate × m` rounded to 2 decimals, where m is 1.5 exactly
when the position is the literal "Senior Seller" and the rate is picked
by the first matching rule among index = 0 → 0.15, index ≤ 2 → 0.10,
index = total − 2 → 0.05, otherwise 0 — so for total < 4 the earlier
rule in this order wins. -/
theorem C1_default_bonus_formula (index total : ℤ) (seller : SellerObj) (p : ℚ)
    (htotal : 1 ≤ total) (h0 : 0 ≤ index) (hlt : index < total)
    (hp : seller.profit = some p) :
    calculateBonusByProfit index total seller =
      .ok (round2 (p * specBonusRate index total * specSeniorMultiplier seller.position)) := by
  have hrange : ¬ (index < 0 ∨ total ≤ index) := by omega
  unfold calculateBonusByProfit
  rw [if_neg hrange, hp]
  rfl

theorem C1_default_bonus_formula_witness :
    (1 : ℤ) ≤ 5 ∧ (0 : ℤ) ≤ 3 ∧ (3 : ℤ) < 5 ∧
    calculateBonusByProfit 3 5
        { id := "s9", first_name := "Ann", last_name := "Wu",
          position := "Senior Seller", profit := some 100 } =
      .ok (round2 (100 * specBonusRate 3 5 * specSeniorMultiplier "Senior Seller")) :=
  ⟨by norm_num, by norm_num, by norm_num,
    C1_default_bonus_formula 3 5 _ 100 (by norm_num) (by norm_num) (by norm_num) rfl⟩

/-! ### Claim C2 -/

/-- Claim C2 counterexample: with total = 5 the code gives rank 3
(= total − 2) the 5% rate and the last rank 4 the 0% rate, while the
claim lists 0 at rank 3 and 0.05 at rank 4; at profit 100 the bonuses
are 5 and 0, not 0 and 5. -/
theorem C2_counterexample :
    calculateBonusByProfit 3 5
        { id := "s1", first_name := "A", last_name := "B", position := "Junior",
          profit := some 100 } = .ok 5 ∧
    calculateBonusByProfit 4 5
        { id := "s1", first_name := "A", last_name := "B", position := "Junior",
          profit := some 100 } = .ok 0 ∧
    round2 (100 * 0 * 1) = 0 ∧ round2 (100 * (5 / 100) * 1) = 5 ∧ (5 : ℚ) ≠ 0 :=
  ⟨rfl, rfl, by decide, by decide, by decide⟩

/-- A non-senior seller with profit 100, used by the C2 witness. -/
def exSellerC2 : SellerObj :=
  { id := "s1", first_name := "A", last_name := "B", position := "Junior",
    profit := some 100 }

/-- Claim C2 amended: for total = 5 the default bonus rates applied at
zero-based ranks 0, 1, 2, 3, 4 are respectively 0.15, 0.10, 0.10, 0.05,
0 — the second-to-last rank 3 = total − 2 gets 5% and the last rank 4
gets 0% — each multiplied by 1.5 exactly for the senior title: the
bonus vector over the five ranks is the image of the rate vector
[0.15, 0.10, 0.10, 0.05, 0]. -/
theorem C2_rates_for_five_sellers (seller : SellerObj) (p : ℚ)
    (hp : seller.profit = some p) :
    ([0, 1, 2, 3, 4] : List ℤ).map (fun index => calculateBonusByProfit index 5 seller) =
      ([15 / 100, 10 / 100, 10 / 100, 5 / 100, 0] : List ℚ).map
        (fun rate => Except.ok (round2 (p * rate * specSeniorMultiplier seller.position))) := by
  have h0 : calculateBonusByProfit 0 5 seller =
      Except.ok (round2 (p * (15 / 100) * specSeniorMultiplier seller.position)) := by
    unfold calculateBonusByProfit
    rw [hp]
    norm_num [specSeniorMultiplier]
  have h1 : calculateBonusByProfit 1 5 seller =
      Except.ok (round2 (p * (10 / 100) * specSeniorMultiplier seller.position)) := by
    unfold calculateBonusByProfit
    rw [hp]
    norm_num [specSeniorMultiplier]
  have h2 : calculateBonusByProfit 2 5 seller =
      Except.ok (round2 (p * (10 / 100) * specSeniorMultiplier seller.position)) := by
    unfold calculateBonusByProfit
    rw [hp]
    norm_num [specSeniorMultiplier]
  have h3 : calculateBonusByProfit 3 5 seller =
      Except.ok (round2 (p * (5 / 100) * specSeniorMultiplier seller.position)) := by
    unfold calculateBonusByProfit
    rw [hp]
    norm_num [specSeniorMultiplier]
  have h4 : calculateBonusByProfit 4 5 seller =
      Except.ok (round2 (p * 0 * specSeniorMultiplier seller.position)) := by
    unfold calculateBonusByProfit
    rw [hp]
    norm_num [specSeniorMultiplier]
  simp only [List.map_cons, List.map_nil, h0, h1, h2, h3, h4]

theorem C2_rates_for_five_sellers_witness :
    exSellerC2.profit = some 100 ∧
    ([0, 1, 2, 3, 4] : List ℤ).map (fun index => calculateBonusByProfit index 5 exSellerC2) =
      ([15 / 100, 10 / 100, 10 / 100, 5 / 100, 0] : List ℚ).map
        (fun rate => Except.ok (round2 (100 * rate * specSeniorMultiplier
          exSellerC2.position))) :=
  ⟨rfl, C2_rates_for_five_sellers exSellerC2 100 rfl⟩

/-! ### Claim C6 -/

/-- Claim C6: calling `analyzeSalesData` with an empty sellers, products
or purchase_records array fails with the corresponding empty-collection
error for every options argument — so no statistics are accumulated, no
strategy is invoked (the result does not depend on the strategies), and
no result is returned. -/
theorem C6_empty_input_rejection (d : Dataset) (o : Options)
    (h : d.sellers = [] ∨ d.products = [] ∨ d.purchase_records = []) :
    analyzeSalesData d o =
      .error (if d.sellers = [] then "Список продавцов пуст"
        else if d.products = [] then "Список товаров пуст"
        else "Список покупок пуст") := by
  unfold analyzeSalesData analyzeSalesDataFull
  by_cases h1 : d.sellers = []
  · simp [h1]
  by_cases h2 : d.products = []
  · simp [h1, h2]
  rcases h with h3 | h3 | h3
  · exact absurd h3 h1
  · exact absurd h3 h2
  · simp [h1, h2, h3]

theorem C6_empty_input_rejection_witness :
    (emptyDataset.sellers = [] ∨ emptyDataset.products = [] ∨
      emptyDataset.purchase_records = []) ∧
    analyzeSalesData emptyDataset defaultOptions =
      .error (if emptyDataset.sellers = [] then "Список продавцов пуст"
        else if emptyDataset.products = [] then "Список товаров пуст"
        else "Список покупок пуст") :=
  ⟨Or.inl rfl, C6_empty_input_rejection emptyDataset defaultOptions (Or.inl rfl)⟩

/-! ### Claim C7 -/

/-- Claim C7 counterexample: with an empty sellers array and both
strategies missing, the call fails with the empty-collection error, not
the missing-strategy error — the dataset is inspected (its emptiness
checks run) before the options are looked at, contradicting "before
touching the dataset … for every dataset argument". -/
theorem C7_counterexample :
    noStrategyOptions.calculateRevenue = none ∧
    analyzeSalesData emptyDataset noStrategyOptions = .error "Список продавцов пуст" ∧
    "Список продавцов пуст" ≠ "calculateRevenue function is required" :=
  ⟨rfl, rfl, by decide⟩

/-- Claim C7 amended: for every dataset whose three collections are
non-empty (their contents arbitrary, even records that would later fail
field validation), a missing `calculateRevenue` fails with its
missing-strategy error, and a present `calculateRevenue` with a missing
`calculateBonus` fails with the other missing-strategy error — i.e. the
strategy checks run before any per-seller, per-product or per-record
inspection, but after the emptiness checks. -/
theorem C7_missing_strategy_rejection (d : Dataset) (o : Options)
    (hs : d.sellers ≠ []) (hp : d.products ≠ []) (hr : d.purchase_records ≠ []) :
    (o.calculateRevenue = none →
      analyzeSalesData d o = .error "calculateRevenue function is required") ∧
    (∀ f, o.calculateRevenue = some f → o.calculateBonus = none →
      analyzeSalesData d o = .error "calculateBonus function is required") := by
  constructor
  · intro hnone
    unfold analyzeSalesData analyzeSalesDataFull
    simp [hs, hp, hr, hnone]
  · intro f hsome hnone
    unfold analyzeSalesData analyzeSalesDataFull
    simp [hs, hp, hr, hsome, hnone]

theorem C7_missing_strategy_rejection_witness :
    exDataA.sellers ≠ [] ∧ exDataA.products ≠ [] ∧ exDataA.purchase_records ≠ [] ∧
    analyzeSalesData exDataA noStrategyOptions =
      .error "calculateRevenue function is required" :=
  ⟨by simp [exDataA], by simp [exDataA], by simp [exDataA],
    (C7_missing_strategy_rejection exDataA noStrategyOptions (by simp [exDataA])
      (by simp [exDataA]) (by simp [exDataA])).1 rfl⟩

theorem exDataA_result : analyzeSalesData exDataA defaultOptions = .ok exOutA := by
  unfold analyzeSalesData
  rw [exDataA_run]

/-! ### Claim C3 -/

/-- Claim C3: for every valid input the sequence `analyzeSalesData`
returns is ordered by profit non-increasing, and sellers with equal
accumulated profit appear in their original input (insertion) order.
The per-seller statistics are pinned by the deterministic
`pipelineStats` stage of this very run (the strategy itself pinned by
`o.calculateRevenue`): the output's (id, reported profit) sequence is
the image of the stable descending sort of exactly that statistics
list, the sort leaves the sublist at any fixed profit value unchanged
(so equal-profit entries keep their pre-sort relative order), and the
pre-sort order is the input seller order (for duplicate-free ids). -/
theorem C3_ranking_sorted_and_stable (d : Dataset) (o : Options) (outs : List OutputRecord)
    (h : analyzeSalesData d o = .ok outs) :
    outs.Pairwise (fun a b => b.profit ≤ a.profit) ∧
    ∃ calcRev sm pm stats,
      o.calculateRevenue = some calcRev ∧
      pipelineStats calcRev d = .ok (sm, pm, stats) ∧
      outs.map (fun r => (r.seller_id, r.profit)) =
        (sortByKeyDesc (fun st => st.profit) (stats.map Prod.snd)).map
          (fun st => (st.seller_id, round2 st.profit)) ∧
      (∀ p : ℚ,
        (sortByKeyDesc (fun st => st.profit) (stats.map Prod.snd)).filter
            (fun st => decide (st.profit = p)) =
          (stats.map Prod.snd).filter (fun st => decide (st.profit = p))) ∧
      ((d.sellers.map (fun s => s.id)).Nodup →
        (stats.map Prod.snd).map (fun st => st.seller_id) =
          d.sellers.map (fun s => s.id)) := by
  obtain ⟨fs, hfull⟩ := (analyzeSalesData_ok_iff d o outs).mp h
  obtain ⟨calcRev, calcBonus, sm, pm, stats, hcr, hcb, hps, hrank⟩ :=
    analyzeFull_ok_inv d o outs fs hfull
  obtain ⟨stats0, hbs, hbp, hagg⟩ := pipelineStats_ok_inv calcRev d sm pm stats hps
  obtain ⟨hnd, hinv, hfst, hids⟩ := stats_facts d calcRev sm pm stats0 stats hbs hagg
  obtain ⟨hm1, hm2, hm3, hm4⟩ := rankPhase_maps calcBonus sm pm _ _ 0 d.sellers outs fs hrank
  have hsorted : (sortByKeyDesc (fun st => st.profit) (stats.map Prod.snd)).Pairwise
      (fun a b => b.profit ≤ a.profit) :=
    pairwise_sortByKeyDesc (fun st => st.profit) (stats.map Prod.snd)
  constructor
  · have hR : (sortByKeyDesc (fun st => st.profit) (stats.map Prod.snd)).Pairwise
        (fun a b => round2 b.profit ≤ round2 a.profit) :=
      hsorted.imp (fun hab => round2_mono hab)
    have hmapped : ((sortByKeyDesc (fun st => st.profit) (stats.map Prod.snd)).map
        (fun st => (st.seller_id, round2 st.profit))).Pairwise
          (fun x y => y.2 ≤ x.2) :=
      (List.pairwise_map).mpr hR
    rw [← hm1] at hmapped
    exact (List.pairwise_map).mp hmapped
  · refine ⟨calcRev, sm, pm, stats, hcr, hps, hm1,
      fun p => filter_sortByKeyDesc (fun st => st.profit) p (stats.map Prod.snd), ?_⟩
    intro hnodup
    exact (statsVals_ids stats hinv).trans (hids hnodup)

theorem C3_ranking_sorted_and_stable_witness :
    analyzeSalesData exDataA defaultOptions = .ok exOutA ∧
    (exOutA.Pairwise (fun a b => b.profit ≤ a.profit) ∧
      ∃ calcRev sm pm stats,
        defaultOptions.calculateRevenue = some calcRev ∧
        pipelineStats calcRev exDataA = .ok (sm, pm, stats) ∧
        exOutA.map (fun r => (r.seller_id, r.profit)) =
          (sortByKeyDesc (fun st => st.profit) (stats.map Prod.snd)).map
            (fun st => (st.seller_id, round2 st.profit)) ∧
        (∀ p : ℚ,
          (sortByKeyDesc (fun st => st.profit) (stats.map Prod.snd)).filter
              (fun st => decide (st.profit = p)) =
            (stats.map Prod.snd).filter (fun st => decide (st.profit = p))) ∧
        ((exDataA.sellers.map (fun s => s.id)).Nodup →
          (stats.map Prod.snd).map (fun st => st.seller_id) =
            exDataA.sellers.map (fun s => s.id))) :=
  ⟨exDataA_result,
    C3_ranking_sorted_and_stable exDataA defaultOptions exOutA exDataA_result⟩

/-! ### Claim C4 -/

/-- Claim C4: a purchase record whose (non-empty) seller_id matches no
statistics entry contributes nothing and raises no error; a line item
whose (non-empty) sku matches no product leaves the seller statistic
exactly as it was (no revenue, no profit, no breakdown entry); and in
every successful run, each output seller's sales_count equals the
number of purchase records bearing that seller's id — counting records,
not items, and including records none of whose items matched a known
product. -/
theorem C4_unknown_references :
    (∀ (calcRev : PseudoPurchase → Except String ℚ) (pm : List (String × Product))
        (stats : List (String × SellerStat)) (purchase : PurchaseRecord),
      purchase.seller_id ≠ "" → alistLookup purchase.seller_id stats = none →
      processRecord calcRev pm stats purchase = .ok stats) ∧
    (∀ (calcRev : PseudoPurchase → Except String ℚ) (pm : List (String × Product))
        (st : SellerStat) (item : LineItem),
      item.sku ≠ "" → alistLookup item.sku pm = none →
      processItem calcRev pm st item = .ok st) ∧
    (∀ (d : Dataset) (o : Options) (outs : List OutputRecord),
      analyzeSalesData d o = .ok outs →
      ∀ rec ∈ outs, rec.sales_count =
        d.purchase_records.countP (fun r => decide (r.seller_id = rec.seller_id))) := by
  refine ⟨?_, ?_, ?_⟩
  · intro calcRev pm stats purchase hne hl
    simp [processRecord, hne, hl]
  · intro calcRev pm st item hne hl
    simp [processItem, hne, hl]
  · intro d o outs h rec hrec
    obtain ⟨fs, hfull⟩ := (analyzeSalesData_ok_iff d o outs).mp h
    obtain ⟨calcRev, calcBonus, sm, pm, stats, hcr, hcb, hps, hrank⟩ :=
      analyzeFull_ok_inv d o outs fs hfull
    obtain ⟨stats0, hbs, hbp, hagg⟩ := pipelineStats_ok_inv calcRev d sm pm stats hps
    obtain ⟨hnd, hinv, hfst, hids⟩ := stats_facts d calcRev sm pm stats0 stats hbs hagg
    obtain ⟨hm1, hm2, hm3, hm4⟩ :=
      rankPhase_maps calcBonus sm pm _ _ 0 d.sellers outs fs hrank
    have hmem : (rec.seller_id, rec.sales_count) ∈
        outs.map (fun r => (r.seller_id, r.sales_count)) :=
      List.mem_map_of_mem _ hrec
    rw [hm2] at hmem
    obtain ⟨st, hstm, hpair⟩ := List.mem_map.mp hmem
    simp only [Prod.mk.injEq] at hpair
    obtain ⟨hid, hcount⟩ := hpair
    have hstv : st ∈ stats.map Prod.snd :=
      ((perm_sortByKeyDesc (fun st => st.profit) (stats.map Prod.snd)).mem_iff).mp hstm
    obtain ⟨e, hemem, heq⟩ := List.mem_map.mp hstv
    have hkey : (e.2).seller_id = e.1 := hinv e hemem
    have hlook : alistLookup e.1 stats = some e.2 := by
      obtain ⟨k, v⟩ := e
      exact alistLookup_of_mem_nodup k v stats hemem hnd
    have hkmem : e.1 ∈ stats0.map Prod.fst := by
      rw [← hfst]
      exact List.mem_map_of_mem Prod.fst hemem
    obtain ⟨st0, hl0⟩ :=
      Option.isSome_iff_exists.mp ((alistLookup_isSome_iff e.1 stats0).mpr hkmem)
    obtain ⟨st2, hl2, hc2⟩ :=
      aggregate_salesCount d.purchase_records stats0 stats e.1 st0 hagg hl0
    have hst2 : st2 = e.2 := by
      have := hl2.symm.trans hlook
      simpa using this
    have hcount0 : st0.sales_count = 0 :=
      (buildSellers_entries d.sellers sm stats0 hbs (e.1, st0)
        (alistLookup_mem e.1 st0 stats0 hl0)).2.1
    have hre : rec.seller_id = e.1 := by
      rw [← hid, ← heq, hkey]
    rw [hre, ← hcount, ← heq, ← hst2, hc2, hcount0]
    exact Nat.zero_add _

/-- A seller used by the C4 witness. -/
def exSellerJ : SellerObj :=
  { id := "s1", first_name := "A", last_name := "B", position := "J", profit := none }

theorem C4_unknown_references_witness :
    processRecord defaultCalcRev [] []
      { seller_id := "sX", items := [] } = .ok [] ∧
    processItem defaultCalcRev [] (initialStat exSellerJ)
      { sku := "px", sale_price := 1, quantity := 1 } = .ok (initialStat exSellerJ) ∧
    exOutA1.sales_count =
      exDataA.purchase_records.countP (fun r => decide (r.seller_id = exOutA1.seller_id)) :=
  ⟨C4_unknown_references.1 defaultCalcRev [] [] _ (by decide) rfl,
   C4_unknown_references.2.1 defaultCalcRev [] _ _ (by decide) rfl,
   C4_unknown_references.2.2 exDataA defaultOptions exOutA exDataA_result exOutA1
     (by simp [exOutA])⟩

/-! ### Claim C5 -/

/-- The dataset refuting the single-rounding revenue claim: two line
items of 0.005 each; the default strategy rounds each to 0.01 before
accumulation, so the reported revenue is 0.02, not round2(0.01) = 0.01. -/
def exDataC5 : Dataset :=
  { sellers :=
      [{ id := "s1", first_name := "A", last_name := "B", position := "Junior",
         profit := none }]
    products := [{ sku := "p1", name := "P", purchase_price := 0 }]
    purchase_records :=
      [{ seller_id := "s1",
         items := [{ sku := "p1", sale_price := 1 / 200, quantity := 1 },
                   { sku := "p1", sale_price := 1 / 200, quantity := 1 }] }] }

/-- Output of `analyzeSalesData exDataC5 defaultOptions`. -/
def exOutC5 : List OutputRecord :=
  [{ seller_id := "s1", name := "A B", revenue := 1 / 50, profit := 1 / 50,
     sales_count := 1, bonus := 0,
     top_products := [{ sku := "p1", name := "P", count := 2, profit := 1 / 50 }] }]

/-- Claim C5 counterexample: on `exDataC5` the reported revenue is
1/50 = 0.02, while the sum of sale_price × quantity over the items,
rounded a single time, is round2(0.01) = 0.01 — so revenue is not
"rounded exactly once at output time"; the default strategy already
rounded each item. -/
theorem C5_counterexample :
    analyzeSalesData exDataC5 defaultOptions = .ok exOutC5 ∧
    exOutC5.map (fun r => r.revenue) = [1 / 50] ∧
    round2 ((1 / 200) * 1 + (1 / 200) * 1) = 1 / 100 ∧
    (1 / 50 : ℚ) ≠ 1 / 100 :=
  ⟨rfl, rfl, by decide, by decide⟩

/-- Claim C5 amended: the aggregator itself accumulates the strategy's
return values without further rounding and rounds once at output, but
the default revenue strategy already rounds each single-item
pseudo-purchase to 2 decimals; consequently each reported revenue is
round2 of the sum of the per-item rounded revenues
round2(sale_price × quantity) over that seller's line items with known
sku. -/
theorem C5_revenue_double_rounding (d : Dataset) (outs : List OutputRecord)
    (h : analyzeSalesData d defaultOptions = .ok outs) :
    ∃ sm pm stats, pipelineStats defaultCalcRev d = .ok (sm, pm, stats) ∧
      ∀ rec ∈ outs,
        rec.revenue = round2 (recordsRevenue pm d.purchase_records rec.seller_id) := by
  obtain ⟨fs, hfull⟩ := (analyzeSalesData_ok_iff d defaultOptions outs).mp h
  obtain ⟨calcRev, calcBonus, sm, pm, stats, hcr, hcb, hps, hrank⟩ :=
    analyzeFull_ok_inv d defaultOptions outs fs hfull
  have hcrd : calcRev = defaultCalcRev := by
    have : some defaultCalcRev = some calcRev := hcr
    simpa using this.symm
  subst hcrd
  obtain ⟨stats0, hbs, hbp, hagg⟩ := pipelineStats_ok_inv defaultCalcRev d sm pm stats hps
  obtain ⟨hnd, hinv, hfst, hids⟩ := stats_facts d defaultCalcRev sm pm stats0 stats hbs hagg
  obtain ⟨hm1, hm2, hm3, hm4⟩ :=
    rankPhase_maps calcBonus sm pm _ _ 0 d.sellers outs fs hrank
  refine ⟨sm, pm, stats, hps, ?_⟩
  intro rec hrec
  have hmem : (rec.seller_id, rec.revenue) ∈
      outs.map (fun r => (r.seller_id, r.revenue)) :=
    List.mem_map_of_mem _ hrec
  rw [hm3] at hmem
  obtain ⟨st, hstm, hpair⟩ := List.mem_map.mp hmem
  simp only [Prod.mk.injEq] at hpair
  obtain ⟨hid, hrev⟩ := hpair
  have hstv : st ∈ stats.map Prod.snd :=
    ((perm_sortByKeyDesc (fun st => st.profit) (stats.map Prod.snd)).mem_iff).mp hstm
  obtain ⟨e, hemem, heq⟩ := List.mem_map.mp hstv
  have hkey : (e.2).seller_id = e.1 := hinv e hemem
  have hlook : alistLookup e.1 stats = some e.2 := by
    obtain ⟨k, v⟩ := e
    exact alistLookup_of_mem_nodup k v stats hemem hnd
  have hkmem : e.1 ∈ stats0.map Prod.fst := by
    rw [← hfst]
    exact List.mem_map_of_mem Prod.fst hemem
  obtain ⟨st0, hl0⟩ :=
    Option.isSome_iff_exists.mp ((alistLookup_isSome_iff e.1 stats0).mpr hkmem)
  obtain ⟨st2, hl2, hc2⟩ :=
    aggregate_revenue d.purchase_records stats0 stats e.1 st0 hagg hl0
  have hst2 : st2 = e.2 := by
    have := hl2.symm.trans hlook
    simpa using this
  have hrev0 : st0.revenue = 0 :=
    (buildSellers_entries d.sellers sm stats0 hbs (e.1, st0)
      (alistLookup_mem e.1 st0 stats0 hl0)).2.2
  have hre : rec.seller_id = e.1 := by
    rw [← hid, ← heq, hkey]
  rw [hre, ← hrev, ← heq, ← hst2, hc2, hrev0, zero_add]

theorem C5_revenue_double_rounding_witness :
    analyzeSalesData exDataC5 defaultOptions = .ok exOutC5 ∧
    (∃ sm pm stats, pipelineStats defaultCalcRev exDataC5 = .ok (sm, pm, stats) ∧
      ∀ rec ∈ exOutC5,
        rec.revenue = round2 (recordsRevenue pm exDataC5.purchase_records rec.seller_id)) :=
  ⟨rfl, C5_revenue_double_rounding exDataC5 exOutC5 rfl⟩

/-! ### Claim C8 -/

/-- One seller buying two products with equal per-product profit, the
earlier-seen one with the smaller quantity. -/
def exDataC8 : Dataset :=
  { sellers :=
      [{ id := "s1", first_name := "A", last_name := "B", position := "Junior",
         profit := none }]
    products := [{ sku := "pA", name := "PA", purchase_price := 0 },
                 { sku := "pB", name := "PB", purchase_price := 0 }]
    purchase_records :=
      [{ seller_id := "s1",
         items := [{ sku := "pA", sale_price := 10, quantity := 1 },
                   { sku := "pB", sale_price := 2, quantity := 5 }] }] }

/-- Output of `analyzeSalesData exDataC8 defaultOptions`. -/
def exOutC8 : List OutputRecord :=
  [{ seller_id := "s1", name := "A B", revenue := 20, profit := 20, sales_count := 1,
     bonus := 3,
     top_products := [{ sku := "pA", name := "PA", count := 1, profit := 10 },
                      { sku := "pB", name := "PB", count := 5, profit := 10 }] }]

/-- Claim C8 counterexample: the seller's two top products have equal
profit 10 with counts 1 then 5 — the code keeps first-purchase order on
profit ties, so the list is not sorted with ties broken by count
(quantity) descending as the claim states. -/
theorem C8_counterexample :
    analyzeSalesData exDataC8 defaultOptions = .ok exOutC8 ∧
    exOutC8.map (fun r => r.top_products) =
      [[{ sku := "pA", name := "PA", count := 1, profit := 10 },
        { sku := "pB", name := "PB", count := 5, profit := 10 }]] ∧
    ¬ ([{ sku := "pA", name := "PA", count := 1, profit := 10 },
        { sku := "pB", name := "PB", count := 5, profit := 10 }] : List TopProduct).Pairwise
        (fun a b => b.profit < a.profit ∨ (b.profit = a.profit ∧ b.count ≤ a.count)) :=
  ⟨rfl, rfl, by decide⟩

/-- Claim C8 amended: for each output seller, its statistics entry is
pinned by the deterministic `pipelineStats` stage of this run, looked
up at that record's id, and top_products is exactly the stable
descending sort, by rounded per-product profit, of that entry's own
per-sku breakdown rendered through `topEntry`, truncated to the first
three: it is sorted non-increasing, profit ties keep the breakdown's
first-purchase order (the sort leaves the sublist at any fixed profit
value unchanged), its length is min 3 (number of distinct purchased
skus), and a seller with more than 3 distinct purchased skus reports
exactly 3. -/
theorem C8_top_products_truncation (d : Dataset) (o : Options) (outs : List OutputRecord)
    (h : analyzeSalesData d o = .ok outs) :
    ∃ calcRev sm pm stats,
      o.calculateRevenue = some calcRev ∧
      pipelineStats calcRev d = .ok (sm, pm, stats) ∧
      ∀ rec ∈ outs, ∃ st : SellerStat,
        alistLookup rec.seller_id stats = some st ∧
        rec.top_products = topProducts pm st.products ∧
        rec.top_products =
          (sortByKeyDesc (fun t => t.profit) (st.products.map (topEntry pm))).take 3 ∧
        rec.top_products.Pairwise (fun a b => b.profit ≤ a.profit) ∧
        rec.top_products.length = min 3 st.products.length ∧
        (3 < st.products.length → rec.top_products.length = 3) ∧
        (∀ p : ℚ,
          (sortByKeyDesc (fun t => t.profit) (st.products.map (topEntry pm))).filter
              (fun t => decide (t.profit = p)) =
            (st.products.map (topEntry pm)).filter (fun t => decide (t.profit = p))) := by
  obtain ⟨fs, hfull⟩ := (analyzeSalesData_ok_iff d o outs).mp h
  obtain ⟨calcRev, calcBonus, sm, pm, stats, hcr, hcb, hps, hrank⟩ :=
    analyzeFull_ok_inv d o outs fs hfull
  obtain ⟨stats0, hbs, hbp, hagg⟩ := pipelineStats_ok_inv calcRev d sm pm stats hps
  obtain ⟨hnd, hinv, hfst, hids⟩ := stats_facts d calcRev sm pm stats0 stats hbs hagg
  obtain ⟨hm1, hm2, hm3, hm4⟩ :=
    rankPhase_maps calcBonus sm pm _ _ 0 d.sellers outs fs hrank
  refine ⟨calcRev, sm, pm, stats, hcr, hps, ?_⟩
  intro rec hrec
  have hmem : (rec.seller_id, rec.top_products) ∈
      outs.map (fun r => (r.seller_id, r.top_products)) :=
    List.mem_map_of_mem _ hrec
  rw [hm4] at hmem
  obtain ⟨st, hstm, hpair⟩ := List.mem_map.mp hmem
  simp only [Prod.mk.injEq] at hpair
  obtain ⟨hid, htop⟩ := hpair
  have hstv : st ∈ stats.map Prod.snd :=
    ((perm_sortByKeyDesc (fun st => st.profit) (stats.map Prod.snd)).mem_iff).mp hstm
  obtain ⟨e, hemem, heq⟩ := List.mem_map.mp hstv
  have hkey : (e.2).seller_id = e.1 := hinv e hemem
  have hlook : alistLookup e.1 stats = some e.2 := by
    obtain ⟨k, v⟩ := e
    exact alistLookup_of_mem_nodup k v stats hemem hnd
  have hre : rec.seller_id = e.1 := by
    rw [← hid, ← heq, hkey]
  have hlook2 : alistLookup rec.seller_id stats = some st := by
    rw [hre, hlook, heq]
  have htopeq : rec.top_products =
      (sortByKeyDesc (fun t => t.profit) (st.products.map (topEntry pm))).take 3 := by
    rw [← htop]
    rfl
  refine ⟨st, hlook2, htop.symm, htopeq, ?_, ?_, ?_, ?_⟩
  · rw [htopeq]
    exact List.Pairwise.sublist (List.take_sublist 3 _)
      (pairwise_sortByKeyDesc (fun t => t.profit) (st.products.map (topEntry pm)))
  · rw [htopeq, List.length_take, length_sortByKeyDesc, List.length_map]
  · intro hlen
    rw [htopeq, List.length_take, length_sortByKeyDesc, List.length_map]
    omega
  · exact fun p =>
      filter_sortByKeyDesc (fun t => t.profit) p (st.products.map (topEntry pm))

theorem C8_top_products_truncation_witness :
    analyzeSalesData exDataA defaultOptions = .ok exOutA ∧
    (∃ calcRev sm pm stats,
      defaultOptions.calculateRevenue = some calcRev ∧
      pipelineStats calcRev exDataA = .ok (sm, pm, stats) ∧
      ∀ rec ∈ exOutA, ∃ st : SellerStat,
        alistLookup rec.seller_id stats = some st ∧
        rec.top_products = topProducts pm st.products ∧
        rec.top_products =
          (sortByKeyDesc (fun t => t.profit) (st.products.map (topEntry pm))).take 3 ∧
        rec.top_products.Pairwise (fun a b => b.profit ≤ a.profit) ∧
        rec.top_products.length = min 3 st.products.length ∧
        (3 < st.products.length → rec.top_products.length = 3) ∧
        (∀ p : ℚ,
          (sortByKeyDesc (fun t => t.profit) (st.products.map (topEntry pm))).filter
              (fun t => decide (t.profit = p)) =
            (st.products.map (topEntry pm)).filter (fun t => decide (t.profit = p)))) :=
  ⟨exDataA_result,
    C8_top_products_truncation exDataA defaultOptions exOutA exDataA_result⟩

/-! ### Claim C9 -/

/-- Single-seller dataset for the mutation counterexample. -/
def exDataC9 : Dataset :=
  { sellers :=
      [{ id := "s1", first_name := "Ann", last_name := "Lee", position := "Junior",
         profit := none }]
    products := [{ sku := "p1", name := "Gad", purchase_price := 1 }]
    purchase_records :=
      [{ seller_id := "s1", items := [{ sku := "p1", sale_price := 3, quantity := 1 }] }] }

/-- Output of `analyzeSalesData exDataC9 defaultOptions`. -/
def exOutC9 : List OutputRecord :=
  [{ seller_id := "s1", name := "Ann Lee", revenue := 3, profit := 2, sales_count := 1,
     bonus := 3 / 10,
     top_products := [{ sku := "p1", name := "Gad", count := 1, profit := 2 }] }]

/-- State of `exDataC9.sellers` after the call: the seller object now
carries a `profit` field it did not have before. -/
def exFsC9 : List SellerObj :=
  [{ id := "s1", first_name := "Ann", last_name := "Lee", position := "Junior",
     profit := some 2 }]

/-- Claim C9 counterexample: after a successful call the seller object
of the input differs from what it held before the call — the ranking
phase wrote the computed profit into it (src/main.js line 184), so
`analyzeSalesData` does mutate the source records. -/
theorem C9_counterexample :
    analyzeSalesDataFull exDataC9 defaultOptions = .ok (exOutC9, exFsC9) ∧
    exFsC9 ≠ exDataC9.sellers :=
  ⟨rfl, by decide⟩

/-- Claim C9 amended: the pipeline never mutates products or purchase
records, and on sellers it changes exactly one thing: each ranked
seller's record receives `profit := some (that seller's computed
profit)`; `id`, `first_name`, `last_name` and `position` are preserved,
and (for duplicate-free ids) every input seller is so mutated, since
every seller is ranked. -/
theorem C9_mutates_seller_profit (d : Dataset) (o : Options) (outs : List OutputRecord)
    (fs : List SellerObj) (h : analyzeSalesDataFull d o = .ok (outs, fs)) :
    fs.map sellerShape = d.sellers.map sellerShape ∧
    ((d.sellers.map (fun s => s.id)).Nodup →
      ∃ sortedStats : List SellerStat,
        (∀ s ∈ d.sellers, ∃ st ∈ sortedStats, st.seller_id = s.id) ∧
        fs = d.sellers.map (fun s =>
          match sortedStats.find? (fun st => decide (st.seller_id = s.id)) with
          | some st => { s with profit := some st.profit }
          | none => s)) := by
  obtain ⟨calcRev, calcBonus, sm, pm, stats, hcr, hcb, hps, hrank⟩ :=
    analyzeFull_ok_inv d o outs fs h
  obtain ⟨stats0, hbs, hbp, hagg⟩ := pipelineStats_ok_inv calcRev d sm pm stats hps
  obtain ⟨hnd, hinv, hfst, hids⟩ := stats_facts d calcRev sm pm stats0 stats hbs hagg
  have hfold := rankPhase_sellers calcBonus sm pm _ _ 0 d.sellers outs fs hrank
  have hvids : (stats.map Prod.snd).map (fun st => st.seller_id) = stats.map Prod.fst :=
    statsVals_ids stats hinv
  constructor
  · rw [hfold]
    exact foldl_setProfit_shape _ _
  · intro hnodup
    have hperm : List.Perm
        ((sortByKeyDesc (fun st => st.profit) (stats.map Prod.snd)).map
          (fun st => st.seller_id))
        ((stats.map Prod.snd).map (fun st => st.seller_id)) :=
      (perm_sortByKeyDesc (fun st => st.profit) (stats.map Prod.snd)).map _
    have hsnd : ((sortByKeyDesc (fun st => st.profit) (stats.map Prod.snd)).map
        (fun st => st.seller_id)).Nodup := by
      rw [hperm.nodup_iff, hvids]
      exact hnd
    refine ⟨sortByKeyDesc (fun st => st.profit) (stats.map Prod.snd), ?_, ?_⟩
    · intro s hs
      have h1 : s.id ∈ stats.map Prod.fst := by
        rw [hids hnodup]
        exact List.mem_map_of_mem (fun s => s.id) hs
      rw [← hvids] at h1
      have h2 : s.id ∈ (sortByKeyDesc (fun st => st.profit) (stats.map Prod.snd)).map
          (fun st => st.seller_id) := hperm.mem_iff.mpr h1
      obtain ⟨st, hstm, hsteq⟩ := List.mem_map.mp h2
      exact ⟨st, hstm, hsteq⟩
    · rw [hfold]
      exact foldl_setProfit_eq_map _ d.sellers hnodup hsnd

theorem C9_mutates_seller_profit_witness :
    analyzeSalesDataFull exDataA defaultOptions = .ok (exOutA, exFsA) ∧
    (exFsA.map sellerShape = exDataA.sellers.map sellerShape ∧
      ((exDataA.sellers.map (fun s => s.id)).Nodup →
        ∃ sortedStats : List SellerStat,
          (∀ s ∈ exDataA.sellers, ∃ st ∈ sortedStats, st.seller_id = s.id) ∧
          exFsA = exDataA.sellers.map (fun s =>
            match sortedStats.find? (fun st => decide (st.seller_id = s.id)) with
            | some st => { s with profit := some st.profit }
            | none => s))) :=
  ⟨exDataA_run,
    C9_mutates_seller_profit exDataA defaultOptions exOutA exFsA exDataA_run⟩

/-! ### Claim C10 -/

/-- Two sellers, records attributed only to the first. -/
def exDataC10 : Dataset :=
  { sellers :=
      [{ id := "s1", first_name := "Ann", last_name := "Lee", position := "Junior",
         profit := none },
       { id := "s2", first_name := "Bob", last_name := "Kim", position := "Junior",
         profit := none }]
    products := [{ sku := "p1", name := "Gad", purchase_price := 0 }]
    purchase_records :=
      [{ seller_id := "s1", items := [{ sku := "p1", sale_price := 10, quantity := 1 }] }] }

/-- Output of `analyzeSalesData exDataC10 defaultOptions`. -/
def exOutC10 : List OutputRecord :=
  [{ seller_id := "s1", name := "Ann Lee", revenue := 10, profit := 10, sales_count := 1,
     bonus := 3 / 2,
     top_products := [{ sku := "p1", name := "Gad", count := 1, profit := 10 }] },
   { seller_id := "s2", name := "Bob Kim", revenue := 0, profit := 0, sales_count := 0,
     bonus := 0, top_products := [] }]

/-- Claim C10 counterexample: seller s2 has no attributed purchase
record (zero matching records), yet the output contains an entry for it
— `sellersStats` is seeded with one entry per input seller during
indexing, so every seller appears in the result. -/
theorem C10_counterexample :
    analyzeSalesData exDataC10 defaultOptions = .ok exOutC10 ∧
    exOutC10.map (fun r => r.seller_id) = ["s1", "s2"] ∧
    exDataC10.purchase_records.countP (fun r => decide (r.seller_id = "s2")) = 0 :=
  ⟨rfl, rfl, by decide⟩

/-- Claim C10 amended: for duplicate-free seller ids the output contains
exactly one entry per input seller — including sellers with no
attributed purchase record, which appear with zero statistics; the
output ids are a permutation of the input seller ids. -/
theorem C10_one_entry_per_seller (d : Dataset) (o : Options) (outs : List OutputRecord)
    (h : analyzeSalesData d o = .ok outs)
    (hnd : (d.sellers.map (fun s => s.id)).Nodup) :
    List.Perm (outs.map (fun r => r.seller_id)) (d.sellers.map (fun s => s.id)) := by
  obtain ⟨fs, hfull⟩ := (analyzeSalesData_ok_iff d o outs).mp h
  obtain ⟨calcRev, calcBonus, sm, pm, stats, hcr, hcb, hps, hrank⟩ :=
    analyzeFull_ok_inv d o outs fs hfull
  obtain ⟨stats0, hbs, hbp, hagg⟩ := pipelineStats_ok_inv calcRev d sm pm stats hps
  obtain ⟨hndk, hinv, hfst, hids⟩ := stats_facts d calcRev sm pm stats0 stats hbs hagg
  obtain ⟨hm1, hm2, hm3, hm4⟩ :=
    rankPhase_maps calcBonus sm pm _ _ 0 d.sellers outs fs hrank
  have h1 : outs.map (fun r => r.seller_id) =
      (sortByKeyDesc (fun st => st.profit) (stats.map Prod.snd)).map
        (fun st => st.seller_id) := by
    simpa using congrArg (List.map Prod.fst) hm1
  have h2 : List.Perm
      ((sortByKeyDesc (fun st => st.profit) (stats.map Prod.snd)).map
        (fun st => st.seller_id))
      ((stats.map Prod.snd).map (fun st => st.seller_id)) :=
    (perm_sortByKeyDesc (fun st => st.profit) (stats.map Prod.snd)).map _
  have h3 : (stats.map Prod.snd).map (fun st => st.seller_id) =
      d.sellers.map (fun s => s.id) :=
    (statsVals_ids stats hinv).trans (hids hnd)
  rw [h1, ← h3]
  exact h2

theorem C10_one_entry_per_seller_witness :
    analyzeSalesData exDataA defaultOptions = .ok exOutA ∧
    (exDataA.sellers.map (fun s => s.id)).Nodup ∧
    List.Perm (exOutA.map (fun r => r.seller_id)) (exDataA.sellers.map (fun s => s.id)) :=
  ⟨exDataA_result, by decide,
    C10_one_entry_per_seller exDataA defaultOptions exOutA exDataA_result (by decide)⟩
